import Mathlib

/-!
Verification development for the zyracss core: a shallow embedding, in Lean 4,
of the input-safety layer, the class/value parsers, the type-directed value
validator and the multi-tier LRU/TTL cache, together with theorems settling
the specification claims about them.

Modelling conventions, used throughout:
* JS strings are Lean `String`s; character work happens on `String.data`.
* Machine time (`Date.now()`) is passed explicitly as an integer argument
  where an operation reads the clock; the elapsed time of a synchronous
  regex evaluation is modelled as zero, so advisory duration-vs-timeout
  branches never fire (the spec itself notes a synchronous timeout cannot
  interrupt a running match).
* Regex literals are embedded as executable character-list scanners with the
  same matching semantics, specialised to the concrete patterns of the source.
* JS dynamic values are modelled by `JSVal` where the code exercises dynamic
  behaviour (truthiness of objects, reading an absent property, comparing
  `undefined` with a number).
-/

namespace Zyra

/-! ## Character helpers (ASCII fragment of the JS semantics) -/

/-- Lowercase an ASCII letter; other characters unchanged.  Models the
case-folding done by the `i` regex flag and `toLowerCase()` on the ASCII
inputs this code base manipulates. -/
def toLowerAscii (c : Char) : Char :=
  if 'A' ≤ c ∧ c ≤ 'Z' then Char.ofNat (c.toNat + 32) else c

/-- Case-insensitive character comparison. -/
def ciEq (a b : Char) : Bool := toLowerAscii a == toLowerAscii b

/-- JS `\s` on the ASCII range (space, tab, LF, CR, VT, FF). -/
def isJsWs (c : Char) : Bool :=
  c == ' ' || c == '\t' || c == '\n' || c == '\r' || c == '\x0b' || c == '\x0c'

/-- JS `\w`: ASCII letters, digits and underscore. -/
def isWordChar (c : Char) : Bool :=
  ('a' ≤ c && c ≤ 'z') || ('A' ≤ c && c ≤ 'Z') || c.isDigit || c == '_'

/-- Does `pat` match case-insensitively at the head of `s`? -/
def matchPrefCI : List Char → List Char → Bool
  | [], _ => true
  | _ :: _, [] => false
  | p :: ps, c :: cs => ciEq p c && matchPrefCI ps cs

/-- Drop a case-insensitive occurrence of `pat` from the head of `s`. -/
def dropPrefCI : List Char → List Char → Option (List Char)
  | [], s => some s
  | _ :: _, [] => none
  | p :: ps, c :: cs => if ciEq p c then dropPrefCI ps cs else none

/-- Does predicate `p` hold of some suffix of `s` (including `s` itself and
the empty suffix)?  This is the search loop of an unanchored regex test. -/
def anyTail (p : List Char → Bool) : List Char → Bool
  | [] => p []
  | c :: cs => p (c :: cs) || anyTail p cs

/-- Case-insensitive substring containment (`/pat/i.test(s)` for a literal
pattern `pat`). -/
def containsCI (pat : List Char) (s : List Char) : Bool :=
  anyTail (matchPrefCI pat) s

/-- Skip a run of JS whitespace (`\s*`). -/
def skipWsJS : List Char → List Char
  | [] => []
  | c :: cs => if isJsWs c then skipWsJS cs else c :: cs

/-- After skipping `\s*`, is the next character `c`? -/
def afterWsIs (c : Char) (l : List Char) : Bool :=
  match skipWsJS l with
  | d :: _ => d == c
  | [] => false

/-- Matcher for the shape `word\s*c` at the head of the input (used for
`expression\s*\(`, `behavior\s*:` and `binding\s*:`). -/
def prefThenWsChar (pat : List Char) (c : Char) (t : List Char) : Bool :=
  match dropPrefCI pat t with
  | some r => afterWsIs c r
  | none => false

/-! ## The `DANGEROUS_PATTERNS` regexes of securityConstants.js,
embedded as executable tests. -/

/-- Test for `/javascript:/i`. -/
def testJavascriptUrl (s : String) : Bool := containsCI "javascript:".data s.data

/-- Test for `/data:/i`. -/
def testDataUrl (s : String) : Bool := containsCI "data:".data s.data

/-- Test for `/expression\s*\(/i`. -/
def testCssExpression (s : String) : Bool :=
  anyTail (prefThenWsChar "expression".data '(') s.data

/-- Test for `/behavior\s*:/i`. -/
def testCssBehavior (s : String) : Bool :=
  anyTail (prefThenWsChar "behavior".data ':') s.data

/-- Test for `/binding\s*:/i`. -/
def testCssBinding (s : String) : Bool :=
  anyTail (prefThenWsChar "binding".data ':') s.data

/-- Test for `/@import/i`. -/
def testCssImport (s : String) : Bool := containsCI "@import".data s.data

/-- Head matcher for a CSS comment: `/*` followed, anywhere later, by `*/`
(the lazy `[\s\S]*?` only affects which match is reported, not whether one
exists). -/
def cssCommentAt (t : List Char) : Bool :=
  match dropPrefCI "/*".data t with
  | some r => containsCI "*/".data r
  | none => false

/-- Test for `/\/\*[\s\S]*?\*\//g`.  The embedding treats every call as a
fresh evaluation (JS `lastIndex` statefulness of the `g` flag across calls
is not modelled; no claim depends on it). -/
def testCssComment (s : String) : Bool := anyTail cssCommentAt s.data

/-- Test for `/<script/i`. -/
def testHtmlScript (s : String) : Bool := containsCI "<script".data s.data

/-- Test for `/<iframe/i`. -/
def testHtmlIframe (s : String) : Bool := containsCI "<iframe".data s.data

/-- Head matcher for `on\w+\s*=`: after `on`, only the maximal `\w` run can
be followed by `\s*=` (stopping earlier leaves a word character where `=`
is required), so the greedy run is taken. -/
def eventHandlerAt (t : List Char) : Bool :=
  match dropPrefCI "on".data t with
  | some r =>
      decide (1 ≤ (r.takeWhile isWordChar).length) &&
      afterWsIs '=' (r.dropWhile isWordChar)
  | none => false

/-- Test for `/on\w+\s*=/i`. -/
def testEventHandler (s : String) : Bool := anyTail eventHandlerAt s.data

/-- Does one of the URL schemes `file: ftp: mailto: tel:` match
case-insensitively at the head of `t`? -/
def schemeAt (t : List Char) : Bool :=
  matchPrefCI "file:".data t || matchPrefCI "ftp:".data t ||
  matchPrefCI "mailto:".data t || matchPrefCI "tel:".data t

/-- Scanner for `/\b(?:file|ftp|mailto|tel):/i`: a match position must sit at
a word boundary, i.e. at the start or after a non-word character (the
alternatives all begin with word characters). -/
def urlSchemeAux : Option Char → List Char → Bool
  | prev, [] =>
      -- no scheme fits in an empty suffix
      (match prev with | _ => false)
  | prev, c :: cs =>
      ((match prev with
        | none => true
        | some p => !isWordChar p) && schemeAt (c :: cs)) ||
      urlSchemeAux (some c) cs

/-- Test for `/\b(?:file|ftp|mailto|tel):/i`. -/
def testUrlScheme (s : String) : Bool := urlSchemeAux none s.data

/-- Head matcher for `calc\s*\([^)]*(?:expression|javascript|eval)`: the
keyword must occur before the first `)` after the opening parenthesis,
since `[^)]*` cannot cross a `)` and the keywords contain none. -/
def calcInjectionAt (t : List Char) : Bool :=
  match dropPrefCI "calc".data t with
  | some r =>
      match skipWsJS r with
      | '(' :: rest =>
          let seg := rest.takeWhile (fun c => c ≠ ')')
          containsCI "expression".data seg || containsCI "javascript".data seg ||
            containsCI "eval".data seg
      | _ => false
  | none => false

/-- Test for `/calc\s*\([^)]*(?:expression|javascript|eval)/i`. -/
def testCalcInjection (s : String) : Bool := anyTail calcInjectionAt s.data

/-! ## isDangerousRegex (safeRegex.js): structural pre-scan of a regex source
string for catastrophic-backtracking shapes. -/

/-- Nondeterministic `[^X]*`: try every split of a run of characters
satisfying `p` followed by the continuation `k`. -/
def segRun (p : Char → Bool) (k : List Char → Bool) : List Char → Bool
  | [] => k []
  | c :: cs => k (c :: cs) || (p c && segRun p k cs)

/-- Character is not a closing parenthesis. -/
def notParen (c : Char) : Bool := c ≠ ')'

/-- Character is not a pipe. -/
def notPipe (c : Char) : Bool := c ≠ '|'

/-- Character is an opening brace (written via its code point to keep brace
characters out of the source text). -/
def isOpenBrace (c : Char) : Bool := c.toNat == 123

/-- Character is `+` or `*`. -/
def isPlusStar (c : Char) : Bool := c == '+' || c == '*'

/-- Head matcher for the meta-shape `\( [^)]* mid [^)]* \) after` used by the
first four dangerous-pattern checks of `isDangerousRegex`. -/
def metaNestedQuant (mid : Char) (after : Char → Bool) (t : List Char) : Bool :=
  match t with
  | '(' :: r =>
      segRun notParen (fun r1 =>
        match r1 with
        | c :: r2 =>
            c == mid && segRun notParen (fun r3 =>
              match r3 with
              | ')' :: d :: _ => after d
              | _ => false) r2
        | [] => false) r
  | _ => false

/-- Head matcher for `\([^|]*\|[^)]*\)[\+\*\{]` (alternation with
repetition). -/
def metaAlternation (t : List Char) : Bool :=
  match t with
  | '(' :: r =>
      segRun notPipe (fun r1 =>
        match r1 with
        | '|' :: r2 =>
            segRun notParen (fun r3 =>
              match r3 with
              | ')' :: d :: _ => isPlusStar d || isOpenBrace d
              | _ => false) r2
        | _ => false) r
  | _ => false

/-- Head matcher for `\([^)]*\([^)]*\)[\+\*][^)]*\)[\+\*]` (complex nested
groups with quantifiers). -/
def metaNestedGroups (t : List Char) : Bool :=
  match t with
  | '(' :: r =>
      segRun notParen (fun r1 =>
        match r1 with
        | '(' :: r2 =>
            segRun notParen (fun r3 =>
              match r3 with
              | ')' :: d :: r4 =>
                  isPlusStar d && segRun notParen (fun r5 =>
                    match r5 with
                    | ')' :: e :: _ => isPlusStar e
                    | _ => false) r4
              | _ => false) r2
        | _ => false) r
  | _ => false

/-- `isDangerousRegex` of safeRegex.js: scan a regex source string for the
six known catastrophic-backtracking shapes. -/
def isDangerousRegex (src : String) : Bool :=
  anyTail (metaNestedQuant '+' (· == '+')) src.data ||
  anyTail (metaNestedQuant '*' (· == '*')) src.data ||
  anyTail (metaNestedQuant '+' isOpenBrace) src.data ||
  anyTail (metaNestedQuant '*' isOpenBrace) src.data ||
  anyTail metaAlternation src.data ||
  anyTail metaNestedGroups src.data

/-! ## Dangerous-pattern table (securityConstants.js lines 12-97) -/

/-- One entry of `DANGEROUS_PATTERNS`: the embedded regex test, the regex
source string (consumed by `isDangerousRegex`), and the metadata. -/
structure DangerPattern where
  name : String
  test : String → Bool
  source : String
  description : String
  riskLevel : String

/-- The `javascript_url` entry. -/
def dpJavascriptUrl : DangerPattern :=
  ⟨"javascript_url", testJavascriptUrl, "javascript:",
    "JavaScript URL scheme that can execute code", "critical"⟩

/-- The `data_url` entry. -/
def dpDataUrl : DangerPattern :=
  ⟨"data_url", testDataUrl, "data:",
    "Data URL scheme that can contain executable content", "high"⟩

/-- The `css_expression` entry. -/
def dpCssExpression : DangerPattern :=
  ⟨"css_expression", testCssExpression, "expression\\s*\\(",
    "CSS expressions (IE-specific) that can execute JavaScript", "critical"⟩

/-- The `css_behavior` entry. -/
def dpCssBehavior : DangerPattern :=
  ⟨"css_behavior", testCssBehavior, "behavior\\s*:",
    "CSS behavior property that can load external scripts", "high"⟩

/-- The `css_binding` entry. -/
def dpCssBinding : DangerPattern :=
  ⟨"css_binding", testCssBinding, "binding\\s*:",
    "CSS binding property (Mozilla-specific) that can execute code", "high"⟩

/-- The `css_import` entry. -/
def dpCssImport : DangerPattern :=
  ⟨"css_import", testCssImport, "@import",
    "CSS import that can load external stylesheets", "medium"⟩

/-- The `css_comment` entry. -/
def dpCssComment : DangerPattern :=
  ⟨"css_comment", testCssComment, "\\/\\*[\\s\\S]*?\\*\\/",
    "CSS comments that might hide malicious content", "low"⟩

/-- The `html_script` entry. -/
def dpHtmlScript : DangerPattern :=
  ⟨"html_script", testHtmlScript, "<script",
    "HTML script tags that execute JavaScript", "critical"⟩

/-- The `html_iframe` entry. -/
def dpHtmlIframe : DangerPattern :=
  ⟨"html_iframe", testHtmlIframe, "<iframe",
    "HTML iframe tags that can load external content", "high"⟩

/-- The `event_handler` entry. -/
def dpEventHandler : DangerPattern :=
  ⟨"event_handler", testEventHandler, "on\\w+\\s*=",
    "HTML event handlers that can execute JavaScript", "critical"⟩

/-- The `url_scheme` entry. -/
def dpUrlScheme : DangerPattern :=
  ⟨"url_scheme", testUrlScheme, "\\b(?:file|ftp|mailto|tel):",
    "Non-HTTP URL schemes that might be dangerous", "medium"⟩

/-- The `css_calc_injection` entry. -/
def dpCssCalcInjection : DangerPattern :=
  ⟨"css_calc_injection", testCalcInjection,
    "calc\\s*\\([^)]*(?:expression|javascript|eval)",
    "CSS calc() function with potential code injection", "high"⟩

/-- The `DANGEROUS_PATTERNS` table of securityConstants.js (lines 12-97):
names, risk levels and regex sources exactly as in the source; each regex is
embedded as the corresponding executable test. -/
def DANGEROUS_PATTERNS : List DangerPattern :=
  [dpJavascriptUrl, dpDataUrl, dpCssExpression, dpCssBehavior, dpCssBinding,
   dpCssImport, dpCssComment, dpHtmlScript, dpHtmlIframe, dpEventHandler,
   dpUrlScheme, dpCssCalcInjection]

/-- `getRiskPriority` of patternDetector: risk-level name to priority, with
unknown names mapping to 0. -/
def getRiskPriority (riskLevel : String) : Nat :=
  if riskLevel = "none" then 0
  else if riskLevel = "low" then 1
  else if riskLevel = "medium" then 2
  else if riskLevel = "high" then 3
  else if riskLevel = "critical" then 4
  else 0

/-! ## syncSafeRegexTest (safeRegex.js lines 50-98) -/

/-- Result object of `syncSafeRegexTest` (the `duration` field is always 0
under the zero-elapsed-time model and is omitted). -/
structure SyncRegexResult where
  result : Bool
  timedOut : Bool
  error : Option String
deriving DecidableEq, Repr

/-- `syncSafeRegexTest` of safeRegex.js, for a string input: reject over-long
input, reject structurally dangerous patterns, otherwise run the test.
Elapsed time is modelled as zero, so the duration-exceeds-timeout branch
never fires. -/
def syncSafeRegexTest (test : String → Bool) (source : String) (input : String)
    (maxLength : Nat) : SyncRegexResult :=
  if input.length > maxLength then
    ⟨false, false, some ("Input too long (" ++ toString input.length ++ " > " ++
      toString maxLength ++ ")")⟩
  else if isDangerousRegex source then
    ⟨false, false, some "Potentially unsafe regex pattern detected"⟩
  else
    ⟨test input, false, none⟩

/-! ## Pattern detection (essential.js lines 241-357, the safe-regex
patternDetector) -/

/-- One element of `matchedPatterns` (the `match` substring and
`executionTime` diagnostics are omitted; no claim inspects them). -/
structure MatchedPattern where
  name : String
  description : String
  riskLevel : String
deriving DecidableEq, Repr

/-- Result of `detectDangerousPatterns`.  `inputLength` is `none` for the
early non-string return, which builds an object without that field. -/
structure DetectResult where
  isDangerous : Bool
  matchedPatterns : List MatchedPattern
  riskLevel : String
  inputLength : Option Nat
deriving DecidableEq, Repr

/-- One step of the detection loop body, for a single pattern. -/
def detectStep (input : String) (acc : List MatchedPattern × String)
    (p : DangerPattern) : List MatchedPattern × String :=
  let t := syncSafeRegexTest p.test p.source input 50000
  if t.error.isSome then acc
  else if t.timedOut then
    (acc.1 ++ [⟨p.name, p.description ++ " (timeout detected)", "critical"⟩],
      "critical")
  else if t.result then
    (acc.1 ++ [⟨p.name, p.description, p.riskLevel⟩],
      if getRiskPriority p.riskLevel > getRiskPriority acc.2 then p.riskLevel
      else acc.2)
  else acc

/-- `detectDangerousPatterns` of essential.js (lines 241-306), string case:
fold the pattern table, skipping patterns whose safe-regex evaluation
errors, collecting matches and the running highest risk level. -/
def detectDangerousPatterns (input : String) : DetectResult :=
  let acc := DANGEROUS_PATTERNS.foldl (detectStep input) ([], "none")
  ⟨decide (0 < acc.1.length), acc.1, acc.2, some input.length⟩

/-- Loop of `isSafeInput` over the high-priority patterns: any error,
timeout or match means unsafe. -/
def isSafeLoop (input : String) : List DangerPattern → Bool
  | [] => true
  | p :: rest =>
      let t := syncSafeRegexTest p.test p.source input 10000
      if t.error.isSome || t.timedOut then false
      else if t.result then false
      else isSafeLoop input rest

/-- `isSafeInput` of essential.js (lines 329-357), string case: check only
the critical/high patterns with a tighter length bound. -/
def isSafeInput (input : String) : Bool :=
  isSafeLoop input (DANGEROUS_PATTERNS.filter
    (fun p => p.riskLevel == "critical" || p.riskLevel == "high"))

/-! ## JS dynamic values

A small model of JS values, covering exactly the dynamic behaviour this
code base exercises: truthiness tests on result objects, reading an absent
property (yields `undefined`), and relational comparison against
`undefined` (NaN semantics: false). -/

/-- JS values. -/
inductive JSVal where
  | undef
  | jsNull
  | bool (b : Bool)
  | num (n : Int)
  | str (s : String)
  | arr (elems : List String)
  | obj (fields : List (String × JSVal))

/-- Is this value a string? (JS `typeof x === "string"`.) -/
def JSVal.isString : JSVal → Bool
  | .str _ => true
  | _ => false

/-- Property read: objects look the key up, everything else (as used here)
yields `undefined`. -/
def JSVal.getField : JSVal → String → JSVal
  | .obj fs, k => match fs.lookup k with
      | some v => v
      | none => JSVal.undef
  | _, _ => JSVal.undef

/-- JS truthiness. -/
def JSVal.truthy : JSVal → Bool
  | JSVal.undef => false
  | .jsNull => false
  | .bool b => b
  | .num n => n ≠ 0
  | .str s => s ≠ ""
  | .arr _ => true
  | .obj _ => true

/-- `ToNumber` restricted to the cases exercised: `undefined` (and the other
non-numeric shapes) convert to NaN, modelled as `none`. -/
def JSVal.toNumber : JSVal → Option Int
  | .num n => some n
  | .bool b => some (if b then 1 else 0)
  | .jsNull => some 0
  | _ => none

/-- JS `>=`: false whenever either side converts to NaN. -/
def jsGe (a b : JSVal) : Bool :=
  match a.toNumber, b.toNumber with
  | some x, some y => decide (x ≥ y)
  | _, _ => false

/-- `detectDangerousPatterns` on an arbitrary JS value: the non-string early
return builds a fixed safe result (without an `inputLength` field). -/
def detectDangerousPatternsJS : JSVal → DetectResult
  | .str s => detectDangerousPatterns s
  | _ => ⟨false, [], "none", none⟩

/-- `isSafeInput` on an arbitrary JS value: non-strings are unsafe. -/
def isSafeInputJS : JSVal → Bool
  | .str s => isSafeInput s
  | _ => false

/-! ## Input sanitization (inputSanitizer.js) -/

/-- Characters stripped by `cleanDangerousCharacters`:
`[\x00-\x08\x0B\x0C\x0E-\x1F\x7F]`. -/
def isStrippedControl (c : Char) : Bool :=
  c.toNat ≤ 8 || c.toNat == 11 || c.toNat == 12 ||
  (14 ≤ c.toNat && c.toNat ≤ 31) || c.toNat == 127

/-- Collapse runs of JS whitespace to a single space
(`replace(/\s+/g, " ")`); the flag records whether the previous kept
character came from a whitespace run. -/
def collapseWsAux (prevWs : Bool) : List Char → List Char
  | [] => []
  | c :: cs =>
      if isJsWs c then
        if prevWs then collapseWsAux true cs
        else ' ' :: collapseWsAux true cs
      else c :: collapseWsAux false cs

/-- `replace(/\s+/g, " ")`. -/
def collapseWs (l : List Char) : List Char := collapseWsAux false l

/-- JS `String.prototype.trim` on the ASCII fragment. -/
def jsTrim (s : String) : String :=
  String.mk (((s.data.dropWhile isJsWs).reverse.dropWhile isJsWs).reverse)

/-- `cleanDangerousCharacters` of inputSanitizer.js: strip control
characters, collapse whitespace, and reject (return `none`) when cleaning
removed more than half of an input longer than 10 characters
(`cleaned.length < input.length * 0.5 && input.length > 10`). -/
def cleanDangerousCharacters (input : String) : Option String :=
  let cleaned := collapseWs (input.data.filter (fun c => !isStrippedControl c))
  if cleaned.length * 2 < input.data.length ∧ input.data.length > 10 then none
  else some (String.mk cleaned)

/-- `sanitizeInput` of inputSanitizer.js: reject non-strings (excluded by
the type) and over-long input, clean, reject an empty cleaning result
(`if (!cleaned)` also catches the empty string), and trim. -/
def sanitizeInput (input : String) : Option String :=
  if input.length > 500 then none
  else
    match cleanDangerousCharacters input with
    | none => none
    | some cleaned => if cleaned = "" then none else some (jsTrim cleaned)

/-! ## Value parser (valueParser.js) -/

/-- The fixed function-name list of `containsCSSFunction`. -/
def cssFunctionNames : List String :=
  ["linear-gradient", "radial-gradient", "conic-gradient", "rgb", "rgba",
   "hsl", "hsla", "calc", "min", "max", "clamp", "var", "env", "url",
   "image", "transform", "rotate", "scale", "translate", "cubic-bezier",
   "steps"]

/-- Case-sensitive substring containment (JS `String.prototype.includes`). -/
def containsSub (pat : List Char) (s : List Char) : Bool :=
  anyTail (fun t => pat.isPrefixOf t) s

/-- JS `String.prototype.startsWith`. -/
def strStartsWith (s pre : String) : Bool := pre.data.isPrefixOf s.data

/-- `containsCSSFunction` of valueParser.js: does the value contain
`name(` anywhere, for one of the fixed function names? -/
def containsCSSFunction (value : String) : Bool :=
  cssFunctionNames.any (fun f => containsSub (f ++ "(").data value.data)

/-- Loop of `smartCommaSplit`: split at commas only when the running
parenthesis depth is zero; the depth is an integer (a surplus `)` drives it
negative, and commas there are not split points either). -/
def smartCommaSplitAux (current : List Char) (depth : Int) :
    List Char → List (List Char)
  | [] => if current = [] then [] else [current.reverse]
  | c :: cs =>
      if c = '(' then smartCommaSplitAux (c :: current) (depth + 1) cs
      else if c = ')' then smartCommaSplitAux (c :: current) (depth - 1) cs
      else if c = ',' ∧ depth = 0 then
        current.reverse :: smartCommaSplitAux [] depth cs
      else smartCommaSplitAux (c :: current) depth cs

/-- `smartCommaSplit` of valueParser.js: comma split respecting
parentheses; an empty split list falls back to the whole value. -/
def smartCommaSplit (value : String) : List String :=
  let result := (smartCommaSplitAux [] 0 value.data).map String.mk
  if result.length > 0 then result else [value]

/-- Result record of `parseCSSSyntax`. -/
structure ParsedCSSValue where
  cssValue : String
  values : List String
  isFunction : Bool
deriving DecidableEq, Repr

/-- `parseCSSSyntax` of valueParser.js: values containing a known CSS
function substring are passed through whole with `isFunction = true`;
otherwise the value is comma-split and multiple parts are joined with
single spaces. -/
def parseCSSSyntax (cssValue : String) : Option ParsedCSSValue :=
  if cssValue = "" then none
  else if containsCSSFunction cssValue then
    some ⟨jsTrim cssValue, [jsTrim cssValue], true⟩
  else
    let values := smartCommaSplit cssValue
    match values with
    | [v] => some ⟨jsTrim v, [v], false⟩
    | _ =>
        let trimmedValues := values.map jsTrim
        some ⟨String.intercalate " " trimmedValues, trimmedValues, false⟩

/-! ## CSS utilities (cssUtils.js) -/

/-- The characters escaped by `escapeCSSSelector`:
`[\[\]:,().#\s+>~]`. -/
def isCssSpecialChar (c : Char) : Bool :=
  c == '[' || c == ']' || c == ':' || c == ',' || c == '(' || c == ')' ||
  c == '.' || c == '#' || isJsWs c || c == '+' || c == '>' || c == '~'

/-- `escapeCSSSelector` of cssUtils.js: prefix every CSS-special character
with a backslash. -/
def escapeCSSSelector (className : String) : String :=
  String.mk (className.data.flatMap
    (fun c => if isCssSpecialChar c then ['\\', c] else [c]))

/-- `generateSelector` of syntaxValidator.js: a dot followed by the escaped
class name. -/
def generateSelector (className : String) : String :=
  "." ++ escapeCSSSelector className

/-- Does the string match `^0+(?:px|em|rem|%|vh|vw|in|cm|mm|pt|pc)$`? -/
def isZeroWithUnit (s : String) : Bool :=
  let zeros := s.data.takeWhile (fun c => c = '0')
  let rest := s.data.dropWhile (fun c => c = '0')
  decide (1 ≤ zeros.length) &&
  ["px", "em", "rem", "%", "vh", "vw", "in", "cm", "mm", "pt", "pc"].any
    (fun u => u.data == rest)

/-- One pass of `replace(/\.0+(?=\D|$)/g, "")`: remove a dot followed by
one or more zeros whenever the next character is a non-digit or the end;
scanning resumes after the removed match, or after the kept character.
Recursion is on an explicit fuel so the function reduces in the kernel;
the fuel is initialized to the list length, which the scan position never
outruns (the zeros run skipped on a removal only shortens the rest). -/
def stripDecimalZerosGo : Nat → List Char → List Char
  | 0, l => l
  | _ + 1, [] => []
  | fuel + 1, c :: cs =>
      if c = '.' then
        let zeros := cs.takeWhile (fun d => d = '0')
        let rest := cs.dropWhile (fun d => d = '0')
        if 1 ≤ zeros.length ∧ (rest = [] ∨ (rest.head?.elim false
            (fun d => !d.isDigit))) then
          stripDecimalZerosGo fuel rest
        else c :: stripDecimalZerosGo fuel cs
      else c :: stripDecimalZerosGo fuel cs

/-- `replace(/\.0+(?=\D|$)/g, "")`. -/
def stripDecimalZerosAux (l : List Char) : List Char :=
  stripDecimalZerosGo l.length l

/-- `normalizeCSSValue` of cssUtils.js: trim; lowercase and expand hex
colors; collapse `0unit` to `0`; strip unnecessary decimal zeros. -/
def normalizeCSSValue (value : String) : String :=
  let n0 := jsTrim value
  let n1 :=
    if n0.data.head?.elim false (fun c => c = '#') then
      let lowered := n0.data.map toLowerAscii
      if lowered.length = 4 then
        match lowered with
        | [h, a, b, c] => [h, a, a, b, b, c, c]
        | l => l
      else lowered
    else n0.data
  let n2 := if isZeroWithUnit (String.mk n1) then "0".data else n1
  String.mk (stripDecimalZerosAux n2)

/-- Does the string match
`^-?[\d.]+(?:px|em|rem|vh|vw|%|in|cm|mm|pt|pc|ex|ch|vmin|vmax|fr)$`?
The greedy `[\d.]+` run must end exactly where a unit completes the
string, so the split point is where digits-and-dots stop. -/
def isCSSLengthPattern (s : List Char) : Bool :=
  let body := if s.head?.elim false (fun c => c = '-') then s.drop 1 else s
  let digitsRun := body.takeWhile (fun c => c.isDigit || c = '.')
  let unit := body.dropWhile (fun c => c.isDigit || c = '.')
  decide (1 ≤ digitsRun.length) &&
  ["px", "em", "rem", "vh", "vw", "%", "in", "cm", "mm", "pt", "pc", "ex",
   "ch", "vmin", "vmax", "fr"].any (fun u => u.data == unit)

/-- `isCSSLength` of cssUtils.js. -/
def isCSSLength (value : String) : Bool :=
  isCSSLengthPattern (jsTrim value).data || jsTrim value = "0"

/-- Does the string match `^#[\da-f]{3,8}$/i`? -/
def isHexColorLoose (s : List Char) : Bool :=
  match s with
  | '#' :: rest =>
      decide (3 ≤ rest.length) && decide (rest.length ≤ 8) &&
      rest.all (fun c => c.isDigit || ('a' ≤ toLowerAscii c ∧
        toLowerAscii c ≤ 'f'))
  | _ => false

/-- `[^)]+\)$`: at least one non-`)` character, then `)` at the end. -/
def looseArgsClose (r : List Char) : Bool :=
  let args := r.takeWhile (fun c => c ≠ ')')
  decide (1 ≤ args.length) && r.dropWhile (fun c => c ≠ ')') == [')']

/-- Does the string match `^rgba?\([^)]+\)$/i` (`fnA`/`fnB` are the short
and long function names, e.g. `rgb`/`rgba`)? -/
def isLooseFunctionCall (fnA fnB : String) (s : List Char) : Bool :=
  match dropPrefCI (fnB ++ "(").data s with
  | some r => looseArgsClose r
  | none =>
      match dropPrefCI (fnA ++ "(").data s with
      | some r => looseArgsClose r
      | none => false

/-- The named-color list of `isCSSColor` (cssUtils.js). -/
def cssUtilsNamedColors : List String :=
  ["transparent", "currentcolor", "inherit", "initial", "unset", "black",
   "white", "red", "green", "blue", "yellow", "orange", "purple", "pink",
   "brown", "gray", "grey"]

/-- `isCSSColor` of cssUtils.js: loose hex, loose `rgb()/rgba()`, loose
`hsl()/hsla()` (arbitrary non-`)` contents), or a small named-color list. -/
def isCSSColor (value : String) : Bool :=
  let trimmed := jsTrim value
  isHexColorLoose trimmed.data ||
  isLooseFunctionCall "rgb" "rgba" trimmed.data ||
  isLooseFunctionCall "hsl" "hsla" trimmed.data ||
  cssUtilsNamedColors.contains (String.mk (trimmed.data.map toLowerAscii))

/-! ## Value validator, color path (part_010: `validateValue` and the color
validators it dispatches to)

The embedding covers `validateValue` for the color-typed entries of
`PROPERTY_VALIDATION_RULES` (`color`, `background-color`, `border-color`,
all of which carry `{ type: "color", allowKeywords: ["currentcolor",
"transparent"] }`); the claims are about color-typed properties only, and
restricting the property argument to those keeps every representable call
faithful to the source.  `reason` strings keep the fixed template text of
the source; numeric segments interpolated into them are elided (they are
diagnostics no claim inspects). -/

/-- Result record of `createValidationResult` (part_010): the metadata
object is represented by its `type` tag; the wall-clock `timestamp` and the
other per-validator metadata fields are omitted. -/
structure CssValidationResult where
  isValid : Bool
  reason : Option String
  value : Option String
  vtype : Option String
deriving DecidableEq, Repr

/-- A color-typed property of `PROPERTY_VALIDATION_RULES`. -/
inductive ColorProperty where
  | color
  | backgroundColor
  | borderColor
deriving DecidableEq, Repr

/-- The `allowKeywords` list shared by the three color rules. -/
def colorAllowKeywords : List String := ["currentcolor", "transparent"]

/-- Digit list to natural number. -/
def digitsToNat (l : List Char) : Nat :=
  l.foldl (fun n c => 10 * n + (c.toNat - 48)) 0

/-- A parsed nonnegative decimal literal `ip.fp`, kept as the scaled
integer `mant = ip·10^scale + fp` with `scale` fractional digits, so that
the exact value is `mant / 10^scale`.  The scaled form keeps the range
comparisons kernel-computable; `JsDec.toRat` gives the rational value and
the `ltNat`/`gtNat` lemmas below show the scaled comparisons agree with
the rational ones. -/
structure JsDec where
  mant : Nat
  scale : Nat
deriving DecidableEq, Repr

/-- Build the scaled decimal from integer and fractional digit runs. -/
def mkJsDec (ip fp : List Char) : JsDec :=
  ⟨digitsToNat ip * 10 ^ fp.length + digitsToNat fp, fp.length⟩

/-- The exact rational value of a parsed decimal (`Number` conversion of
the literal). -/
def JsDec.toRat (d : JsDec) : ℚ := (d.mant : ℚ) / (10 : ℚ) ^ d.scale

/-- Scaled-integer form of `value < b`. -/
def JsDec.ltNat (d : JsDec) (b : Nat) : Bool :=
  decide (d.mant < b * 10 ^ d.scale)

/-- Scaled-integer form of `value > b`. -/
def JsDec.gtNat (d : JsDec) (b : Nat) : Bool :=
  decide (b * 10 ^ d.scale < d.mant)

/-- Parse a greedy `\d+(?:\.\d+)?` at the head of the input; returns the
parsed decimal and the rest.  Greediness is safe against the continuations
used here (none of which begin with a digit or a dot). -/
def parseNum (l : List Char) : Option (JsDec × List Char) :=
  let ip := l.takeWhile Char.isDigit
  let r := l.dropWhile Char.isDigit
  if ip.length = 0 then none
  else
    match r with
    | '.' :: r2 =>
        let fp := r2.takeWhile Char.isDigit
        if fp.length = 0 then some (mkJsDec ip [], r)
        else some (mkJsDec ip fp, r2.dropWhile Char.isDigit)
    | _ => some (mkJsDec ip [], r)

/-- Case-sensitive literal prefix drop. -/
def dropPrefCS : List Char → List Char → Option (List Char)
  | [], s => some s
  | _ :: _, [] => none
  | p :: ps, c :: cs => if p == c then dropPrefCS ps cs else none

/-- Require at least one whitespace character, then skip the run (`\s+`). -/
def skipWs1 : List Char → Option (List Char)
  | c :: cs => if isJsWs c then some (skipWsJS cs) else none
  | [] => none

/-- Require `\s*,\s*`. -/
def skipCommaSep (l : List Char) : Option (List Char) :=
  match skipWsJS l with
  | ',' :: r => some (skipWsJS r)
  | _ => none

/-- An alpha capture after `Number` conversion: `some d` for a plain
decimal, `none` (NaN) when the capture carried a `%`. -/
abbrev AlphaNum := Option JsDec

/-- Parse the modern-syntax alpha tail `(?:\/\s*(\d+(?:\.\d+)?|\d+(?:\.\d+)?%))?\s*\)$`
given the input already positioned after `\s*` following the third channel. -/
def parseAlphaSlashClose (l : List Char) : Option (Option AlphaNum) :=
  match l with
  | '/' :: r =>
      match parseNum (skipWsJS r) with
      | some (q, r2) =>
          let withPct := r2.head?.elim false (fun c => c = '%')
          let r3 := if withPct then r2.drop 1 else r2
          if skipWsJS r3 = [')'] then some (some (if withPct then none else some q))
          else none
      | none => none
  | [')'] => some none
  | _ => none

/-- Matcher for the modern RGB pattern
`^rgba?\(\s*(\d+(?:\.\d+)?)\s+(\d+(?:\.\d+)?)\s+(\d+(?:\.\d+)?)\s*(?:\/\s*(…))?\s*\)$`. -/
def parseRGBModern (s : List Char) :
    Option (JsDec × JsDec × JsDec × Option AlphaNum) :=
  let afterName :=
    match dropPrefCS "rgba(".data s with
    | some r => some r
    | none => dropPrefCS "rgb(".data s
  match afterName with
  | none => none
  | some r0 =>
      match parseNum (skipWsJS r0) with
      | none => none
      | some (q1, r1) =>
          match skipWs1 r1 with
          | none => none
          | some r2 =>
              match parseNum r2 with
              | none => none
              | some (q2, r3) =>
                  match skipWs1 r3 with
                  | none => none
                  | some r4 =>
                      match parseNum r4 with
                      | none => none
                      | some (q3, r5) =>
                          match parseAlphaSlashClose (skipWsJS r5) with
                          | some a => some (q1, q2, q3, a)
                          | none => none

/-- Matcher for the legacy RGB pattern
`^rgba?\(\s*(\d+(?:\.\d+)?)\s*,\s*(\d+(?:\.\d+)?)\s*,\s*(\d+(?:\.\d+)?)\s*(?:,\s*(\d+(?:\.\d+)?))?\s*\)$`. -/
def parseRGBLegacy (s : List Char) :
    Option (JsDec × JsDec × JsDec × Option AlphaNum) :=
  let afterName :=
    match dropPrefCS "rgba(".data s with
    | some r => some r
    | none => dropPrefCS "rgb(".data s
  match afterName with
  | none => none
  | some r0 =>
      match parseNum (skipWsJS r0) with
      | none => none
      | some (q1, r1) =>
          match skipCommaSep r1 with
          | none => none
          | some r2 =>
              match parseNum r2 with
              | none => none
              | some (q2, r3) =>
                  match skipCommaSep r3 with
                  | none => none
                  | some r4 =>
                      match parseNum r4 with
                      | none => none
                      | some (q3, r5) =>
                          match skipWsJS r5 with
                          | ',' :: r6 =>
                              match parseNum (skipWsJS r6) with
                              | some (qa, r7) =>
                                  if skipWsJS r7 = [')'] then
                                    some (q1, q2, q3, some (some qa))
                                  else none
                              | none => none
                          | [')'] => some (q1, q2, q3, none)
                          | _ => none

/-- `createValidationResult` (part_010 lines 648-663), with the metadata
object reduced to its `type` tag. -/
def createValidationResult (isValid : Bool) (reason : Option String)
    (value : Option String) (vtype : Option String := none) :
    CssValidationResult :=
  ⟨isValid, reason, value, vtype⟩

/-- `validateRGBColor` (part_010 lines 465-517): match the modern or legacy
syntax, require channels in [0,255] and a numeric alpha in [0,1] (a
percentage alpha converts to NaN and passes both bound checks). -/
def validateRGBColor (value : String) : CssValidationResult :=
  match (match parseRGBModern value.data with
         | some m => some m
         | none => parseRGBLegacy value.data) with
  | none => createValidationResult false (some "Invalid RGB color syntax") (some value)
  | some (r, g, b, a) =>
      if [r, g, b].any (fun c => c.ltNat 0 || c.gtNat 255) then
        createValidationResult false
          (some "RGB channel value out of range (0-255)") (some value)
      else
        match a with
        | some (some alpha) =>
            if alpha.ltNat 0 || alpha.gtNat 1 then
              createValidationResult false
                (some "Alpha value out of range (0-1)") (some value)
            else createValidationResult true none (some value) (some "rgb-color")
        | some none =>
            -- NaN alpha: both comparisons are false, so the value passes
            createValidationResult true none (some value) (some "rgb-color")
        | none => createValidationResult true none (some value) (some "rgb-color")

/-- Matcher for the modern HSL pattern
`^hsla?\(\s*(\d+(?:\.\d+)?)\s+(\d+(?:\.\d+)?)%\s+(\d+(?:\.\d+)?)%\s*(?:\/\s*(…))?\s*\)$`. -/
def parseHSLModern (s : List Char) :
    Option (JsDec × JsDec × JsDec × Option AlphaNum) :=
  let afterName :=
    match dropPrefCS "hsla(".data s with
    | some r => some r
    | none => dropPrefCS "hsl(".data s
  match afterName with
  | none => none
  | some r0 =>
      match parseNum (skipWsJS r0) with
      | none => none
      | some (q1, r1) =>
          match skipWs1 r1 with
          | none => none
          | some r2 =>
              match parseNum r2 with
              | none => none
              | some (q2, r3) =>
                  match r3 with
                  | '%' :: r3b =>
                      match skipWs1 r3b with
                      | none => none
                      | some r4 =>
                          match parseNum r4 with
                          | none => none
                          | some (q3, r5) =>
                              match r5 with
                              | '%' :: r5b =>
                                  match parseAlphaSlashClose (skipWsJS r5b) with
                                  | some a => some (q1, q2, q3, a)
                                  | none => none
                              | _ => none
                  | _ => none

/-- Matcher for the legacy HSL pattern
`^hsla?\(\s*(\d+(?:\.\d+)?)\s*,\s*(\d+(?:\.\d+)?)%\s*,\s*(\d+(?:\.\d+)?)%\s*(?:,\s*(\d+(?:\.\d+)?))?\s*\)$`. -/
def parseHSLLegacy (s : List Char) :
    Option (JsDec × JsDec × JsDec × Option AlphaNum) :=
  let afterName :=
    match dropPrefCS "hsla(".data s with
    | some r => some r
    | none => dropPrefCS "hsl(".data s
  match afterName with
  | none => none
  | some r0 =>
      match parseNum (skipWsJS r0) with
      | none => none
      | some (q1, r1) =>
          match skipCommaSep r1 with
          | none => none
          | some r2 =>
              match parseNum r2 with
              | none => none
              | some (q2, r3) =>
                  match r3 with
                  | '%' :: r3b =>
                      match skipCommaSep r3b with
                      | none => none
                      | some r4 =>
                          match parseNum r4 with
                          | none => none
                          | some (q3, r5) =>
                              match r5 with
                              | '%' :: r5b =>
                                  match skipWsJS r5b with
                                  | ',' :: r6 =>
                                      match parseNum (skipWsJS r6) with
                                      | some (qa, r7) =>
                                          if skipWsJS r7 = [')'] then
                                            some (q1, q2, q3, some (some qa))
                                          else none
                                      | none => none
                                  | [')'] => some (q1, q2, q3, none)
                                  | _ => none
                              | _ => none
                  | _ => none

/-- `validateHSLColor` (part_010 lines 522-601): hue in [0,360], saturation
and lightness in [0,100], numeric alpha in [0,1]. -/
def validateHSLColor (value : String) : CssValidationResult :=
  match (match parseHSLModern value.data with
         | some m => some m
         | none => parseHSLLegacy value.data) with
  | none => createValidationResult false (some "Invalid HSL color syntax") (some value)
  | some (h, s, l, a) =>
      if h.ltNat 0 || h.gtNat 360 then
        createValidationResult false
          (some "Hue value out of range (0-360)") (some value)
      else if s.ltNat 0 || s.gtNat 100 then
        createValidationResult false
          (some "Saturation value out of range (0-100%)") (some value)
      else if l.ltNat 0 || l.gtNat 100 then
        createValidationResult false
          (some "Lightness value out of range (0-100%)") (some value)
      else
        match a with
        | some (some alpha) =>
            if alpha.ltNat 0 || alpha.gtNat 1 then
              createValidationResult false
                (some "Alpha value out of range (0-1)") (some value)
            else createValidationResult true none (some value) (some "hsl-color")
        | some none =>
            createValidationResult true none (some value) (some "hsl-color")
        | none => createValidationResult true none (some value) (some "hsl-color")

/-- `validateHexColor` (part_010 lines 445-460):
`/^#([0-9a-f]{3}|[0-9a-f]{6}|[0-9a-f]{8})$/i`. -/
def validateHexColor (value : String) : CssValidationResult :=
  match value.data with
  | '#' :: rest =>
      if (rest.length = 3 ∨ rest.length = 6 ∨ rest.length = 8) ∧
          rest.all (fun c => c.isDigit ∨ ('a' ≤ toLowerAscii c ∧
            toLowerAscii c ≤ 'f')) then
        createValidationResult true none (some value) (some "hex-color")
      else createValidationResult false (some "Invalid hex color format") (some value)
  | _ => createValidationResult false (some "Invalid hex color format") (some value)

/-- The named-color table of `isNamedColor` (part_010 lines 718-870). -/
def namedColors : List String :=
  ["aliceblue", "antiquewhite", "aqua", "aquamarine", "azure", "beige",
   "bisque", "black", "blanchedalmond", "blue", "blueviolet", "brown",
   "burlywood", "cadetblue", "chartreuse", "chocolate", "coral",
   "cornflowerblue", "cornsilk", "crimson", "cyan", "darkblue", "darkcyan",
   "darkgoldenrod", "darkgray", "darkgreen", "darkgrey", "darkkhaki",
   "darkmagenta", "darkolivegreen", "darkorange", "darkorchid", "darkred",
   "darksalmon", "darkseagreen", "darkslateblue", "darkslategray",
   "darkslategrey", "darkturquoise", "darkviolet", "deeppink",
   "deepskyblue", "dimgray", "dimgrey", "dodgerblue", "firebrick",
   "floralwhite", "forestgreen", "fuchsia", "gainsboro", "ghostwhite",
   "gold", "goldenrod", "gray", "green", "greenyellow", "grey", "honeydew",
   "hotpink", "indianred", "indigo", "ivory", "khaki", "lavender",
   "lavenderblush", "lawngreen", "lemonchiffon", "lightblue", "lightcoral",
   "lightcyan", "lightgoldenrodyellow", "lightgray", "lightgreen",
   "lightgrey", "lightpink", "lightsalmon", "lightseagreen",
   "lightskyblue", "lightslategray", "lightslategrey", "lightsteelblue",
   "lightyellow", "lime", "limegreen", "linen", "magenta", "maroon",
   "mediumaquamarine", "mediumblue", "mediumorchid", "mediumpurple",
   "mediumseagreen", "mediumslateblue", "mediumspringgreen",
   "mediumturquoise", "mediumvioletred", "midnightblue", "mintcream",
   "mistyrose", "moccasin", "navajowhite", "navy", "oldlace", "olive",
   "olivedrab", "orange", "orangered", "orchid", "palegoldenrod",
   "palegreen", "paleturquoise", "palevioletred", "papayawhip",
   "peachpuff", "peru", "pink", "plum", "powderblue", "purple", "red",
   "rosybrown", "royalblue", "saddlebrown", "salmon", "sandybrown",
   "seagreen", "seashell", "sienna", "silver", "skyblue", "slateblue",
   "slategray", "slategrey", "snow", "springgreen", "steelblue", "tan",
   "teal", "thistle", "tomato", "turquoise", "violet", "wheat", "white",
   "whitesmoke", "yellow", "yellowgreen"]

/-- `isNamedColor` (part_010). -/
def isNamedColor (value : String) : Bool :=
  namedColors.contains (String.mk (value.data.map toLowerAscii))

/-- `validateColorValue` (part_010 lines 411-440): keyword, named color,
hex, rgb, hsl dispatch on the trimmed lowercase value. -/
def validateColorValue (value : String) (allowKeywords : List String) :
    CssValidationResult :=
  let trimmed := String.mk ((jsTrim value).data.map toLowerAscii)
  if allowKeywords.contains trimmed then
    createValidationResult true none (some value) (some "color-keyword")
  else if isNamedColor trimmed then
    createValidationResult true none (some value) (some "named-color")
  else if strStartsWith trimmed "#" then validateHexColor trimmed
  else if strStartsWith trimmed "rgb" then validateRGBColor trimmed
  else if strStartsWith trimmed "hsl" then validateHSLColor trimmed
  else createValidationResult false (some "Invalid color format") (some value)

/-- Matcher for the `var()` pattern of `validateCustomProperty`
(part_010 line 247):
`^var\(\s*(--[a-zA-Z0-9-_]+)\s*(?:,\s*([^)]+))?\s*\)$`; returns the
captured property name and optional raw fallback capture. -/
def parseVarPattern (s : List Char) : Option (String × Option String) :=
  match dropPrefCS "var(".data s with
  | none => none
  | some r0 =>
      match skipWsJS r0 with
      | '-' :: '-' :: r1 =>
          let isNameChar := fun (c : Char) =>
            c.isAlpha || c.isDigit || c == '-' || c == '_'
          let nm := r1.takeWhile isNameChar
          let r2 := r1.dropWhile isNameChar
          if nm.length = 0 then none
          else
            let propertyName := String.mk ('-' :: '-' :: nm)
            match skipWsJS r2 with
            | ',' :: r3 =>
                let r4 := skipWsJS r3
                let fb := r4.takeWhile (fun c => c ≠ ')')
                let r5 := r4.dropWhile (fun c => c ≠ ')')
                if fb.length = 0 then none
                else if r5 = [')'] then some (propertyName, some (String.mk fb))
                else none
            | [')'] => some (propertyName, none)
            | _ => none
      | _ => none

/-- `validateCustomProperty` (part_010 lines 246-278): validate `var()`
syntax; the name always starts with `--` when the pattern matches, and a
present fallback capture is never all-whitespace, so the two inner failure
branches of the source are unreachable and the match yields success. -/
def validateCustomProperty (value : String) : CssValidationResult :=
  match parseVarPattern value.data with
  | none => createValidationResult false (some "Invalid var() syntax") (some value)
  | some (_nm, fb) =>
      match fb with
      | some f =>
          if jsTrim f = "" then
            createValidationResult false (some "Empty fallback value") (some value)
          else createValidationResult true none (some value) (some "custom-property")
      | none => createValidationResult true none (some value) (some "custom-property")

/-- `isGlobalKeyword` (part_010 lines 675-684). -/
def isGlobalKeyword (value : String) : Bool :=
  ["inherit", "initial", "unset", "revert", "revert-layer"].contains
    (String.mk (value.data.map toLowerAscii))

/-- `validateValue` (part_010 lines 148-241) for a color-typed property,
with default options (`strict = false`, `allowCustomProperties = true`):
non-empty check, `isSafeInput`, normalization, `var()` handling, global
keywords, then the color fast path through `isCSSColor` and, failing that,
`validateColorValue`.  The `isCSSLength` fast path of the source is dead
here because the rules type of every `ColorProperty` is `"color"`. -/
def validateValue (value : String) (property : ColorProperty) :
    CssValidationResult :=
  if value = "" then
    createValidationResult false (some "Value must be a non-empty string")
      (some value)
  else if !isSafeInput value then
    createValidationResult false (some "Value contains unsafe patterns")
      (some value)
  else
    let normalizedValue := normalizeCSSValue value
    if strStartsWith normalizedValue "var(" then
      validateCustomProperty normalizedValue
    else if isGlobalKeyword normalizedValue then
      createValidationResult true none (some normalizedValue)
        (some "global-keyword")
    else
      -- rules := PROPERTY_VALIDATION_RULES[property]; rules.type = "color"
      match property with
      | _ =>
        if isCSSColor normalizedValue then
          createValidationResult true none (some normalizedValue) (some "color")
        else validateColorValue normalizedValue colorAllowKeywords

/-! ## Error system (part_001: ZyraResult, ZyraError, ErrorFactory,
ValidationResult, ParseResult) -/

/-- `ZyraError` (part_001): the `context` record (an echo of the inputs)
and the wall-clock `timestamp` are omitted; no claim inspects them. -/
structure ZyraError where
  code : String
  message : String
  suggestions : List String
deriving DecidableEq, Repr

/-- `ZyraResult` (part_001): tagged success/error. -/
inductive ZyraResult (α : Type) where
  | success (data : α)
  | error (e : ZyraError)
deriving DecidableEq, Repr

/-- Is this result a success? (the `success` field). -/
def ZyraResult.isSuccess : ZyraResult α → Bool
  | .success _ => true
  | .error _ => false

/-- The data of a successful result. -/
def ZyraResult.toSuccess : ZyraResult α → Option α
  | .success d => some d
  | .error _ => none

/-- The error of a failed result. -/
def ZyraResult.toError : ZyraResult α → Option ZyraError
  | .success _ => none
  | .error e => some e

/-- `ErrorFactory.invalidInput` (part_001). -/
def ErrorFactory.invalidInput (reason : String)
    (suggestions : List String := []) : ZyraError :=
  ⟨"INVALID_INPUT", "Invalid input: " ++ reason, suggestions⟩

/-- `ErrorFactory.invalidClassSyntax` (part_001): empty suggestions are
replaced by a fixed default list. -/
def ErrorFactory.invalidClassSyntax (className reason : String)
    (suggestions : List String := []) : ZyraError :=
  ⟨"INVALID_CLASS_SYNTAX",
    "Invalid class syntax in \"" ++ className ++ "\": " ++ reason,
    if suggestions.length > 0 then suggestions
    else ["Use bracket syntax: property-[value]",
          "Use shorthand syntax: property-value",
          "Check for unmatched brackets or invalid characters"]⟩

/-- `ErrorFactory.invalidCSSValue` (part_001). -/
def ErrorFactory.invalidCSSValue (property value reason : String)
    (suggestions : List String := []) : ZyraError :=
  ⟨"INVALID_CSS_VALUE",
    "Invalid CSS value \"" ++ value ++ "\" for property \"" ++ property ++
      "\": " ++ reason, suggestions⟩

/-- `ErrorFactory.dangerousInput` (part_001): empty suggestions are
replaced by a fixed default list. -/
def ErrorFactory.dangerousInput (patterns : List String)
    (suggestions : List String := []) : ZyraError :=
  ⟨"DANGEROUS_INPUT",
    "Input contains dangerous patterns: " ++ String.intercalate ", " patterns,
    if suggestions.length > 0 then suggestions
    else ["Remove javascript: URLs", "Remove data: URLs",
          "Remove CSS expressions", "Use safe CSS values only"]⟩

/-- `ErrorFactory.propertyNotSupported` (part_001). -/
def ErrorFactory.propertyNotSupported (property : String)
    (availableProperties : List String := []) : ZyraError :=
  ⟨"PROPERTY_NOT_SUPPORTED",
    "CSS property \"" ++ property ++ "\" is not supported",
    if availableProperties.length > 0 then
      ["Did you mean: " ++
        String.intercalate ", " (availableProperties.take 3) ++ "?"]
    else ["Check the property mapping documentation"]⟩

/-- `ValidationResult` (part_001). -/
structure ValidationResult where
  isValid : Bool
  value : Option String
  errors : List ZyraError
deriving DecidableEq, Repr

/-- `ValidationResult.valid`. -/
def ValidationResult.valid (value : String) : ValidationResult :=
  ⟨true, some value, []⟩

/-- `ValidationResult.invalid`. -/
def ValidationResult.invalid (errors : List ZyraError) : ValidationResult :=
  ⟨false, none, errors⟩

/-! ## Property map (maps/index.js and the per-category map files)

`PROPERTY_MAP` is the concatenation, in spread order, of the category maps.
The duplicated keys within a file map to identical values, so first-match
lookup on the concatenated association list agrees with the last-wins
semantics of the JS `Map` constructor. -/

/-- `SPACING_MAP` (spacing.js). -/
def SPACING_MAP : List (String × String) :=
  [("padding", "padding"), ("padding-top", "padding-top"),
   ("padding-right", "padding-right"), ("padding-bottom", "padding-bottom"),
   ("padding-left", "padding-left"),
   ("p", "padding"), ("pt", "padding-top"), ("pr", "padding-right"),
   ("pb", "padding-bottom"), ("pl", "padding-left"),
   ("padding-block", "padding-block"),
   ("padding-block-start", "padding-block-start"),
   ("padding-block-end", "padding-block-end"),
   ("padding-inline", "padding-inline"),
   ("padding-inline-start", "padding-inline-start"),
   ("padding-inline-end", "padding-inline-end"),
   ("py", "padding-block"), ("py-start", "padding-block-start"),
   ("py-end", "padding-block-end"), ("px", "padding-inline"),
   ("px-start", "padding-inline-start"), ("px-end", "padding-inline-end"),
   ("margin", "margin"), ("margin-top", "margin-top"),
   ("margin-right", "margin-right"), ("margin-bottom", "margin-bottom"),
   ("margin-left", "margin-left"),
   ("m", "margin"), ("mt", "margin-top"), ("mr", "margin-right"),
   ("mb", "margin-bottom"), ("ml", "margin-left"),
   ("margin-block", "margin-block"),
   ("margin-block-start", "margin-block-start"),
   ("margin-block-end", "margin-block-end"),
   ("margin-inline", "margin-inline"),
   ("margin-inline-start", "margin-inline-start"),
   ("margin-inline-end", "margin-inline-end"),
   ("my", "margin-block"), ("my-start", "margin-block-start"),
   ("my-end", "margin-block-end"), ("mx", "margin-inline"),
   ("mx-start", "margin-inline-start"), ("mx-end", "margin-inline-end"),
   ("gap", "gap"), ("column-gap", "column-gap"), ("row-gap", "row-gap"),
   ("g", "gap"), ("col-gap", "column-gap"), ("row-gap", "row-gap")]

/-- `TYPOGRAPHY_MAP` (typography.js). -/
def TYPOGRAPHY_MAP : List (String × String) :=
  [("font", "font"), ("font-family", "font-family"), ("ff", "font-family"),
   ("font-size", "font-size"), ("fs", "font-size"),
   ("font-weight", "font-weight"), ("fw", "font-weight"),
   ("font-style", "font-style"), ("content", "content"),
   ("line-height", "line-height"), ("lh", "line-height"),
   ("letter-spacing", "letter-spacing"), ("ls", "letter-spacing"),
   ("text-align", "text-align"), ("ta", "text-align"),
   ("text-decoration", "text-decoration"), ("td", "text-decoration"),
   ("text-transform", "text-transform"), ("tt", "text-transform")]

/-- `COLOR_MAP` (color.js). -/
def COLOR_MAP : List (String × String) :=
  [("color", "color"), ("c", "color"),
   ("background-color", "background-color"),
   ("bg-color", "background-color"), ("bg", "background-color"),
   ("background", "background-color")]

/-- `LAYOUT_MAP` (layout.js). -/
def LAYOUT_MAP : List (String × String) :=
  [("display", "display"), ("d", "display"), ("position", "position"),
   ("pos", "position"), ("top", "top"), ("right", "right"),
   ("bottom", "bottom"), ("left", "left"), ("float", "float"),
   ("clear", "clear"), ("overflow", "overflow"),
   ("overflow-x", "overflow-x"), ("overflow-y", "overflow-y"),
   ("z-index", "z-index"), ("z", "z-index")]

/-- `SIZING_MAP` (sizing.js). -/
def SIZING_MAP : List (String × String) :=
  [("width", "width"), ("w", "width"), ("min-width", "min-width"),
   ("min-w", "min-width"), ("max-width", "max-width"),
   ("max-w", "max-width"), ("height", "height"), ("h", "height"),
   ("min-height", "min-height"), ("min-h", "min-height"),
   ("max-height", "max-height"), ("max-h", "max-height")]

/-- `BORDERS_MAP` (borders.js). -/
def BORDERS_MAP : List (String × String) :=
  [("border-w", "border-width"), ("border-width", "border-width"),
   ("border-t-w", "border-top-width"), ("border-r-w", "border-right-width"),
   ("border-b-w", "border-bottom-width"),
   ("border-l-w", "border-left-width"), ("border-style", "border-style"),
   ("rounded", "border-radius"), ("border-radius", "border-radius"),
   ("rounded-t", "border-top-left-radius"),
   ("rounded-r", "border-top-right-radius"),
   ("rounded-b", "border-bottom-right-radius"),
   ("rounded-l", "border-bottom-left-radius")]

/-- `EFFECTS_MAP` (effects.js). -/
def EFFECTS_MAP : List (String × String) :=
  [("box-shadow", "box-shadow"), ("shadow", "box-shadow"),
   ("bs", "box-shadow"), ("opacity", "opacity"), ("o", "opacity"),
   ("transform", "transform"), ("t", "transform"), ("filter", "filter"),
   ("f", "filter")]

/-- `PROPERTY_MAP` (maps/index.js): categories in spread order. -/
def PROPERTY_MAP : List (String × String) :=
  SPACING_MAP ++ TYPOGRAPHY_MAP ++ COLOR_MAP ++ LAYOUT_MAP ++ SIZING_MAP ++
  BORDERS_MAP ++ EFFECTS_MAP

/-- `PROPERTY_MAP.get`. -/
def propertyMapGet (pfx : String) : Option String := PROPERTY_MAP.lookup pfx

/-! ## Class parser (classParser.js) -/

/-- ASCII letter. -/
def isAlphaChar (c : Char) : Bool :=
  ('a' ≤ c && c ≤ 'z') || ('A' ≤ c && c ≤ 'Z')

/-- The class `[a-zA-Z0-9-]`. -/
def isAlnumDash (c : Char) : Bool := isAlphaChar c || c.isDigit || c == '-'

/-- The class `[a-zA-Z-]`. -/
def isAlphaDash (c : Char) : Bool := isAlphaChar c || c == '-'

/-- Matcher for `/^([a-zA-Z-]+)-\[([^\]]+)\]$/` (classParser.js line 84),
returning the two capture groups.  The prefix class cannot contain `[`, so
the bracket is the first `[` of the string; the value class cannot contain
`]`, so the closing bracket is the first `]` after it and must end the
string. -/
def bracketMatch (s : String) : Option (String × String) :=
  let pre := s.data.takeWhile (fun c => c ≠ '[')
  let rest := s.data.dropWhile (fun c => c ≠ '[')
  match rest with
  | '[' :: tail =>
      if 2 ≤ pre.length ∧ pre.all isAlphaDash ∧ pre.getLast? = some '-' then
        let v := tail.takeWhile (fun c => c ≠ ']')
        if tail.dropWhile (fun c => c ≠ ']') = [']'] ∧ 1 ≤ v.length then
          some (String.mk pre.dropLast, String.mk v)
        else none
      else none
  | _ => none

/-- Test for `/^[a-zA-Z][a-zA-Z0-9-]*-\[[^\]]+\]$/` (classParser.js line
112), by the same first-bracket decomposition. -/
def validClassPatternTest (s : String) : Bool :=
  let pre := s.data.takeWhile (fun c => c ≠ '[')
  let rest := s.data.dropWhile (fun c => c ≠ '[')
  match rest with
  | '[' :: tail =>
      decide (2 ≤ pre.length) && pre.head?.elim false isAlphaChar &&
      (pre.drop 1).all isAlnumDash && pre.getLast? == some '-' &&
      (tail.dropWhile (fun c => c ≠ ']') == [']']) &&
      decide (1 ≤ (tail.takeWhile (fun c => c ≠ ']')).length)
  | _ => false

/-- Regex source of the valid-class pattern (consumed by
`isDangerousRegex` inside `syncSafeRegexTest`). -/
def validClassPatternSource : String := "^[a-zA-Z][a-zA-Z0-9-]*-\\[[^\\]]+\\]$"

/-- The result object of `syncSafeRegexTest` as a JS value. -/
def syncResultToJSVal (r : SyncRegexResult) : JSVal :=
  .obj [("result", .bool r.result), ("timedOut", .bool r.timedOut),
        ("error", match r.error with
          | some e => .str e
          | none => .jsNull)]

/-- `validateClassSyntax` (classParser.js lines 104-149).  The source binds
the result OBJECT of `syncSafeRegexTest` to `isValid` and then tests
`if (!isValid)`: an object is always truthy, so the invalid branch is
unreachable and every string validates.  The branch is embedded anyway
(note that inside it, `syntaxValidation` suggestions use the same pattern:
`startsWithNumber` is again a truthy result object, so its suggestion is
always pushed). -/
def validateClassSyntax (className : String) : ValidationResult :=
  let isValid := syncResultToJSVal
    (syncSafeRegexTest validClassPatternTest validClassPatternSource
      className 10000)
  if isValid.truthy = false then
    let s1 := if containsSub [' '] className.data then
        ["Remove spaces from class name"] else []
    let s2 := if containsSub ['['] className.data ∧
        ¬containsSub [']'] className.data then ["Close bracket with ]"] else []
    let s3 := if ¬containsSub ['['] className.data ∧
        containsSub [']'] className.data then ["Open bracket with ["] else []
    let startsWithNumber := syncResultToJSVal
      (syncSafeRegexTest (fun s => s.data.head?.elim false Char.isDigit)
        "^[0-9]" className 10000)
    let s4 := if startsWithNumber.truthy then
        ["Class names cannot start with numbers"] else []
    ValidationResult.invalid [ErrorFactory.invalidClassSyntax className
      "Invalid character pattern" (s1 ++ s2 ++ s3 ++ s4)]
  else ValidationResult.valid className

/-- The object returned by `safeRegexMatch` (safeRegex.js lines 107-130)
for the bracket regex on a string input: fields `matches`, `timedOut`,
`error`, `duration` — and, crucially, no `length` field. -/
def safeRegexMatchBracket (input : String) : JSVal :=
  .obj [("matches", match bracketMatch input with
          | some (p, v) => .arr [input, p, v]
          | none => .jsNull),
        ("timedOut", .bool false), ("error", .jsNull), ("duration", .num 0)]

/-- `isColorValue` (classParser.js lines 223-232). -/
def isColorValue (value : String) : Bool :=
  strStartsWith value "#" || strStartsWith value "rgb" ||
  strStartsWith value "hsl" ||
  (decide (1 ≤ value.data.length) && value.data.all isAlphaChar) ||
  containsSub "var(--".data value.data

/-- The unit alternation of `isSizeValue`. -/
def sizeUnits : List String :=
  ["px", "em", "rem", "%", "vw", "vh", "pt", "pc", "in", "cm", "mm", "ex",
   "ch", "vmin", "vmax"]

/-- `isSizeValue` (classParser.js lines 239-246):
`/^\d+(\.\d+)?(px|…)$/i` or a bare `/^\d+(\.\d+)?$/`. -/
def isSizeValue (value : String) : Bool :=
  match parseNum value.data with
  | some (_, rest) =>
      rest.isEmpty ||
      sizeUnits.any (fun u => u.data == rest.map toLowerAscii)
  | none => false

/-- Order-preserving first-occurrence deduplication (the key set of a JS
`Map` or the contents of a JS `Set`, in insertion order). -/
def dedupFirstAux (seen : List String) : List String → List String
  | [] => []
  | c :: r =>
      if seen.contains c then dedupFirstAux seen r
      else c :: dedupFirstAux (c :: seen) r

/-- First-occurrence deduplication from an empty seen set. -/
def dedupFirst (l : List String) : List String := dedupFirstAux [] l

/-- `getAvailableProperties` (classParser.js lines 253-268): prefixes
sharing the first letter, stably sorted by length distance, first five. -/
def getAvailableProperties (pfx : String) : List String :=
  let allPrefixes := dedupFirst (PROPERTY_MAP.map Prod.fst)
  let similar := allPrefixes.filter (fun p =>
    match pfx.data.head? with
    | some c0 => p.data.head? == some c0
    | none => true)
  let dist := fun (a : String) => ((a.length : Int) - (pfx.length : Int)).natAbs
  (similar.mergeSort (fun a b => decide (dist a ≤ dist b))).take 5

/-- `ParsedClass` (classParser.js lines 199-213).  The source fields
`prefix` and `syntax` are Lean keywords and are embedded as `pfx` and
`syntaxKind`; the `metadata` record (`parseTimestamp`, `fromCache`) is
wall-clock/cache diagnostics and is omitted. -/
structure ParsedClass where
  className : String
  pfx : String
  property : String
  value : String
  rawValue : String
  values : List String
  syntaxKind : String
  selector : String
  isFunction : Bool
deriving DecidableEq, Repr

/-- `parseBracketSyntax` (classParser.js lines 157-216): property
resolution with the `text` disambiguation heuristic, value parsing, and
construction of the `ParsedClass`. -/
def parseBracketSyntax (pfx value : String) : ZyraResult ParsedClass :=
  let property0 := propertyMapGet pfx
  let property : Option String :=
    if pfx = "text" ∧ property0 = none then
      some (if isColorValue value then "color"
            else if isSizeValue value then "font-size"
            else "color")
    else if pfx = "text" then
      property0.map (fun p =>
        if p = "color" ∧ isSizeValue value then "font-size" else p)
    else property0
  match property with
  | none =>
      .error (ErrorFactory.propertyNotSupported pfx (getAvailableProperties pfx))
  | some prop =>
      match parseCSSSyntax value with
      | none =>
          .error (ErrorFactory.invalidCSSValue prop value
            "Could not parse CSS value"
            ["Check for unmatched parentheses", "Verify CSS function syntax"])
      | some vp =>
          .success ⟨pfx ++ "-[" ++ value ++ "]", pfx, prop, vp.cssValue,
            value, vp.values, "bracket",
            generateSelector (pfx ++ "-[" ++ value ++ "]"), vp.isFunction⟩

/-- `parseClassCore` (classParser.js lines 33-97): input check,
sanitization, dangerous-pattern check, syntax validation, then the bracket
parse.  `safeRegexMatch` returns an object with a `matches` field and no
`length` field, so `bracketMatches.length` is `undefined` and the test
`bracketMatches.length >= 3` is false (NaN comparison); the bracket branch
is unreachable and every surviving input falls through to the
"Unknown syntax pattern" rejection. -/
def parseClassCore (className : String) : ZyraResult ParsedClass :=
  if className = "" then
    .error (ErrorFactory.invalidInput "Class name must be a non-empty string")
  else
    match sanitizeInput className with
    | none => .error (ErrorFactory.dangerousInput ["Contains dangerous characters"])
    | some sanitized =>
      if sanitized = "" then
        .error (ErrorFactory.dangerousInput ["Contains dangerous characters"])
      else
        let securityCheck := detectDangerousPatterns sanitized
        if securityCheck.isDangerous then
          let patterns := securityCheck.matchedPatterns.map
            (fun p => p.name ++ " (" ++ p.riskLevel ++ ")")
          let suggestions := securityCheck.matchedPatterns.filterMap
            (fun p => if p.description = "" then none
              else some ("Avoid: " ++ p.description))
          .error (ErrorFactory.dangerousInput patterns suggestions)
        else
          let syntaxValidation := validateClassSyntax sanitized
          if syntaxValidation.isValid = false then
            -- the source reads `syntaxValidation.reason` and
            -- `syntaxValidation.suggestions`, fields a ValidationResult does
            -- not have: `reason` interpolates as the string "undefined" and
            -- the missing suggestions fall back to the factory defaults
            .error (ErrorFactory.invalidClassSyntax sanitized "undefined" [])
          else
            let bracketObj := safeRegexMatchBracket sanitized
            if bracketObj.truthy && jsGe (bracketObj.getField "length") (.num 3) then
              match bracketMatch sanitized with
              | some (p, v) => parseBracketSyntax p v
              | none =>
                  .error (ErrorFactory.invalidClassSyntax sanitized
                    "Unknown syntax pattern"
                    ["Use bracket syntax: property-[value]"])
            else
              .error (ErrorFactory.invalidClassSyntax sanitized
                "Unknown syntax pattern"
                ["Use bracket syntax: property-[value]"])

/-- `parseClass = withParseCache(parseClassCore)` (classParser.js line
319): the cache wrapper memoizes the results of the pure
`parseClassCore`, so on any cache state whose parse entries were produced
by the same function it returns exactly `parseClassCore className`; the
embedding therefore identifies `parseClass` with `parseClassCore`. -/
def parseClass (className : String) : ZyraResult ParsedClass :=
  parseClassCore className

/-- One invalid entry of a batch parse (classParser.js lines 305-309):
`suggestions` is `error.suggestions || []`, and factory errors always
carry a (possibly defaulted) suggestions array. -/
structure InvalidEntry where
  className : String
  error : ZyraError
  suggestions : List String
deriving DecidableEq, Repr

/-- `ParseResult` (part_001 lines 260-272): the parsed and invalid lists. -/
structure ParseResult where
  parsed : List ParsedClass
  invalid : List InvalidEntry
deriving DecidableEq, Repr

/-- The batch loop of `parseClasses` (classParser.js lines 294-311): skip
already-seen class names, parse each new one, and route the outcome to the
parsed or invalid accumulator. -/
def parseLoop : List String → List String → List ParsedClass →
    List InvalidEntry → ParseResult
  | [], _, parsed, invalid => ⟨parsed, invalid⟩
  | c :: rest, seen, parsed, invalid =>
      if seen.contains c then parseLoop rest seen parsed invalid
      else
        match parseClass c with
        | .success d => parseLoop rest (c :: seen) (parsed ++ [d]) invalid
        | .error e =>
            parseLoop rest (c :: seen) parsed
              (invalid ++ [⟨c, e, e.suggestions⟩])

/-- `parseClasses` (classParser.js lines 275-314) on an array input. -/
def parseClassesList (classes : List String) : ParseResult :=
  parseLoop classes [] [] []

/-- Tokenize the way `input.trim().split(/\s+/).filter(Boolean)` does:
maximal runs of non-whitespace characters, in order. -/
def splitWsAux (cur : List Char) : List Char → List String
  | [] => if cur.isEmpty then [] else [String.mk cur.reverse]
  | c :: cs =>
      if isJsWs c then
        if cur.isEmpty then splitWsAux [] cs
        else String.mk cur.reverse :: splitWsAux [] cs
      else splitWsAux (c :: cur) cs

/-- Whitespace tokenization of a batch string. -/
def splitWsTokens (s : String) : List String := splitWsAux [] s.data

/-- `parseClasses` on a whitespace-delimited string input. -/
def parseClassesString (s : String) : ParseResult :=
  parseClassesList (splitWsTokens s)

/-! ## Cache system (cacheSystem.js)

The two JS `Map`s of an `LRUCache` are modelled as insertion-ordered
association lists: `Map.get` is first-match lookup, `Map.set` on a present
key updates the value in place (a JS `Map` keeps the original position),
`Map.set` on an absent key appends, `Map.delete` removes the key.
`Date.now()` is an explicit `Int` argument of the mutating operations. -/

/-- JS `Map.set`: update in place when present, append when absent. -/
def mapSet {β : Type} (k : String) (v : β) (l : List (String × β)) :
    List (String × β) :=
  if l.any (fun p => p.1 == k) then
    l.map (fun p => if p.1 == k then (k, v) else p)
  else l ++ [(k, v)]

/-- JS `Map.delete`. -/
def mapErase {β : Type} (k : String) (l : List (String × β)) :
    List (String × β) :=
  l.filter (fun p => p.1 ≠ k)

/-- A cache entry (cacheSystem.js lines 285-289). -/
structure CacheEntry (α : Type) where
  value : α
  timestamp : Int
  accessCount : Nat
deriving DecidableEq, Repr

/-- The `LRUCache` state (cacheSystem.js lines 262-268). -/
structure LRUCache (α : Type) where
  maxSize : Nat
  ttl : Int
  cache : List (String × CacheEntry α)
  accessOrder : List (String × Int)
deriving DecidableEq, Repr

/-- A freshly constructed `LRUCache`. -/
def LRUCache.init (α : Type) (maxSize : Nat) (ttl : Int) : LRUCache α :=
  ⟨maxSize, ttl, [], []⟩

/-- The loop of `evictLRU` (cacheSystem.js lines 339-348): find the first
key whose access time is strictly smaller than every earlier candidate
(starting from `Infinity`, so the first element always becomes the initial
candidate). -/
def findOldest : List (String × Int) → Option String
  | [] => none
  | (k, t) :: rest => some (findOldestGo k t rest)
where
  findOldestGo (k : String) (t : Int) : List (String × Int) → String
    | [] => k
    | (k', t') :: r =>
        if t' < t then findOldestGo k' t' r else findOldestGo k t r

/-- `evictLRU` (cacheSystem.js lines 336-354).  The guard `if (oldestKey)`
is a JS truthiness test: a `null` key (empty map) and the empty-string key
are both falsy and suppress the eviction. -/
def LRUCache.evictLRU (c : LRUCache α) : LRUCache α :=
  if c.accessOrder.length = 0 then c
  else
    match findOldest c.accessOrder with
    | none => c
    | some oldestKey =>
        if oldestKey = "" then c
        else
          { c with cache := mapErase oldestKey c.cache,
                   accessOrder := mapErase oldestKey c.accessOrder }

/-- `set` (cacheSystem.js lines 270-291): remove an existing entry, evict
when at capacity, insert the fresh entry and stamp its access time. -/
def LRUCache.set (c : LRUCache α) (k : String) (v : α) (now : Int) :
    LRUCache α :=
  let c1 :=
    if (c.cache.lookup k).isSome then
      { c with cache := mapErase k c.cache,
               accessOrder := mapErase k c.accessOrder }
    else c
  let c2 := if c1.cache.length ≥ c1.maxSize then c1.evictLRU else c1
  { c2 with cache := mapSet k ⟨v, now, 1⟩ c2.cache,
            accessOrder := mapSet k now c2.accessOrder }

/-- `get` (cacheSystem.js lines 293-313): miss on an absent key; an entry
older than `ttl` is deleted and reported as a miss; a live entry bumps its
access count and access time and returns its value. -/
def LRUCache.get (c : LRUCache α) (k : String) (now : Int) :
    Option α × LRUCache α :=
  match c.cache.lookup k with
  | none => (none, c)
  | some e =>
      if now - e.timestamp > c.ttl then
        (none, { c with cache := mapErase k c.cache,
                        accessOrder := mapErase k c.accessOrder })
      else
        (some e.value,
          { c with
              cache := mapSet k { e with accessCount := e.accessCount + 1 } c.cache,
              accessOrder := mapSet k now c.accessOrder })

/-- `has` (cacheSystem.js lines 315-317): a bare `Map.has`, with no TTL
check. -/
def LRUCache.has (c : LRUCache α) (k : String) : Bool :=
  (c.cache.lookup k).isSome

/-- `delete` (cacheSystem.js lines 319-322). -/
def LRUCache.del (c : LRUCache α) (k : String) : LRUCache α :=
  { c with cache := mapErase k c.cache, accessOrder := mapErase k c.accessOrder }

/-- `clear` (cacheSystem.js lines 324-327). -/
def LRUCache.clear (c : LRUCache α) : LRUCache α :=
  { c with cache := [], accessOrder := [] }

/-- `size` (cacheSystem.js lines 329-331). -/
def LRUCache.size (c : LRUCache α) : Nat := c.cache.length

/-- One externally invocable operation on a cache tier. -/
inductive CacheOp (α : Type) where
  | set (k : String) (v : α) (now : Int)
  | get (k : String) (now : Int)
  | del (k : String)
  | clear
deriving Repr

/-- Apply one operation (discarding the value a `get` returns). -/
def applyOp (c : LRUCache α) : CacheOp α → LRUCache α
  | .set k v now => c.set k v now
  | .get k now => (c.get k now).2
  | .del k => c.del k
  | .clear => c.clear

/-- Run a sequence of operations left to right. -/
def runOps (c : LRUCache α) (ops : List (CacheOp α)) : LRUCache α :=
  ops.foldl applyOp c

/-- Keys a `set` operation inserts (`none` for the other operations). -/
def CacheOp.setKey : CacheOp α → Option String
  | .set k _ _ => some k
  | _ => none

/-! ### Generation-cache keying (cacheSystem.js lines 150-197) -/

/-- Sorting of the class array (`[...classArray].sort()`; the JS default
comparator is lexicographic, so the result is a function of the multiset of
classes alone). -/
def sortClasses (classes : List String) : List String :=
  Multiset.sort (fun a b => a ≤ b) (classes : Multiset String)

/-- The five documented generation options; absent fields are `none`
(JS `undefined`). -/
structure GenOptions where
  minify : Option Bool
  groupSelectors : Option Bool
  includeComments : Option Bool
  important : Option Bool
  scope : Option String
deriving DecidableEq, Repr

/-- The normalized option triple hashed by `createGenerationKey`:
`minify: options.minify || false`, `groupSelectors: options.groupSelectors
!== false`, `includeComments: options.includeComments || false` — the
`important` and `scope` fields are never read. -/
def normalizedOptionsTriple (o : GenOptions) : Bool × Bool × Bool :=
  (o.minify.getD false, decide (o.groupSelectors ≠ some false),
   o.includeComments.getD false)

/-- Bool to JS JSON text. -/
def boolJson (b : Bool) : String := if b then "true" else "false"

/-- `JSON.stringify` of the normalized options object under the sorted key
replacer of `hashObject` (keys in sorted order: `groupSelectors`,
`includeComments`, `minify`). -/
def optionsJson (t : Bool × Bool × Bool) : String :=
  "\x7b\"groupSelectors\":" ++ boolJson t.2.1 ++ ",\"includeComments\":" ++
    boolJson t.2.2 ++ ",\"minify\":" ++ boolJson t.1 ++ "\x7d"

/-- `hashString` (cacheSystem.js lines 195-197) computes the first 8 hex
digits of the node `crypto` md5 of its input; the external hash is
modelled as an abstract deterministic function of the input string (the
identity), which is all the claims proved below use. -/
def hashString (s : String) : String := s

/-- `createGenerationKey` (cacheSystem.js lines 150-167). -/
def createGenerationKey (classes : List String) (o : GenOptions) : String :=
  let sorted := sortClasses classes
  let optionsHash := hashString (optionsJson (normalizedOptionsTriple o))
  let classesHash := hashString (String.intercalate "|" sorted)
  "gen:" ++ classesHash ++ ":" ++ optionsHash

/-- `getCachedGeneratedCSS` (cacheSystem.js lines 90-109) at the cache
level: look the generation key up in the generation tier (the
hit-statistics counters and the `fromCache` stamping of the returned stats
are omitted). -/
def getCachedGeneratedCSS (tier : LRUCache α) (classes : List String)
    (o : GenOptions) (now : Int) : Option α × LRUCache α :=
  tier.get (createGenerationKey classes o) now

/-- `cacheGeneratedCSS` (cacheSystem.js lines 73-85) at the cache level. -/
def cacheGeneratedCSS (tier : LRUCache α) (classes : List String)
    (o : GenOptions) (result : α) (now : Int) : LRUCache α :=
  tier.set (createGenerationKey classes o) result now

/-! ## Specification-side definitions used by the claims -/

/-- The risk-level update step of the detection loop. -/
def updRisk (h : String) (q : MatchedPattern) : String :=
  if getRiskPriority q.riskLevel > getRiskPriority h then q.riskLevel else h

/-- The maximum risk level of a list of matched patterns under the priority
order none < low < medium < high < critical (left fold, `"none"` for the
empty list). -/
def specRiskMax (l : List MatchedPattern) : String := l.foldl updRisk "none"

/-- A pattern whose safe evaluation neither errors nor times out and whose
test matches. -/
def patternFires (input : String) (p : DangerPattern) : Prop :=
  (syncSafeRegexTest p.test p.source input 50000).error = none ∧
  (syncSafeRegexTest p.test p.source input 50000).result = true

/-- The over-long input of the C2 counterexample: `javascript:` followed by
49990 `a`s, 50001 characters in total. -/
def bigStringC2 : String :=
  String.mk ("javascript:".data ++ List.replicate 49990 'a')

/-- Modelled from the spec: split at depth-zero commas, keeping every
segment.  Returns the leading segment and the list of later segments, so
the result always describes at least one segment. -/
def topSplitGo : Int → List Char → List Char × List (List Char)
  | _, [] => ([], [])
  | d, c :: cs =>
      if c = '(' then
        (c :: (topSplitGo (d + 1) cs).1, (topSplitGo (d + 1) cs).2)
      else if c = ')' then
        (c :: (topSplitGo (d - 1) cs).1, (topSplitGo (d - 1) cs).2)
      else if c = ',' ∧ d = 0 then
        ([], (topSplitGo d cs).1 :: (topSplitGo d cs).2)
      else (c :: (topSplitGo d cs).1, (topSplitGo d cs).2)

/-- Drop a final empty segment (a trailing comma yields no extra part). -/
def removeTrailingEmpty : List (List Char) → List (List Char)
  | [] => []
  | [s] => if s = [] then [] else [s]
  | s :: rest => s :: removeTrailingEmpty rest

/-- Modelled from the spec: the top-level comma split — segments between
depth-zero commas, a trailing empty segment dropped, and the whole value
as fallback when no segment remains. -/
def specTopLevelSplit (s : String) : List String :=
  let segs := (removeTrailingEmpty
    ((topSplitGo 0 s.data).1 :: (topSplitGo 0 s.data).2)).map String.mk
  if segs.isEmpty then [s] else segs

/-- Does the parenthesis opened at depth-count 1 close exactly at the last
character of the list? -/
def closesAtEnd : Nat → List Char → Bool
  | _, [] => false
  | d, c :: cs =>
      if c = '(' then closesAtEnd (d + 1) cs
      else if c = ')' then
        if d = 1 then cs.isEmpty else closesAtEnd (d - 1) cs
      else closesAtEnd d cs

/-- Modelled from the spec: the entire raw value is one single CSS
function call — a known function name, an opening parenthesis, and a body
whose matching closing parenthesis is the last character, with nothing
trailing it. -/
def isEntireSingleFunctionSpec (s : String) : Bool :=
  cssFunctionNames.any (fun f =>
    strStartsWith s (f ++ "(") &&
    closesAtEnd 1 (s.data.drop (f.length + 1)))

/-- The invalid-list entry a failing token contributes (`none` for a
succeeding token). -/
def invalidEntryOf (c : String) : Option InvalidEntry :=
  match parseClass c with
  | .error e => some ⟨c, e, e.suggestions⟩
  | .success _ => none

/-- The parse tier as constructed by `ZyraCacheSystem` (cacheSystem.js
lines 15-22): `maxParseCache = 5000`, one-hour ttl in milliseconds. -/
def parseTierInit (α : Type) : LRUCache α := LRUCache.init α 5000 3600000

/-- The generation tier (cacheSystem.js lines 16-25):
`maxGenerationCache = 1000`. -/
def generationTierInit (α : Type) : LRUCache α := LRUCache.init α 1000 3600000

/-- The rule tier (cacheSystem.js lines 17-28): `maxRuleCache = 10000`. -/
def ruleTierInit (α : Type) : LRUCache α := LRUCache.init α 10000 3600000

/-- Well-formedness of a cache tier: the two maps are keyed identically
and in the same order, the keys are duplicate-free, the falsy empty-string
key is absent, and the size respects the bound.  Every state reachable
from a fresh tier by operations that never set the empty-string key
satisfies it. -/
def GoodCache (c : LRUCache α) : Prop :=
  c.accessOrder.map Prod.fst = c.cache.map Prod.fst ∧
  (c.cache.map Prod.fst).Nodup ∧
  "" ∉ c.cache.map Prod.fst ∧
  c.cache.length ≤ c.maxSize

instance {α : Type} (c : LRUCache α) : Decidable (GoodCache c) :=
  inferInstanceAs (Decidable
    (c.accessOrder.map Prod.fst = c.cache.map Prod.fst ∧
     (c.cache.map Prod.fst).Nodup ∧
     "" ∉ c.cache.map Prod.fst ∧
     c.cache.length ≤ c.maxSize))

/-- The `i`-th three-letter key used to fill a tier (base-26 digits over
`A`-`Z`, distinct for `i < 17576`). -/
def ckey (i : Nat) : String :=
  String.mk [Char.ofNat (65 + i / 676), Char.ofNat (65 + (i / 26) % 26),
    Char.ofNat (65 + i % 26)]

/-- The keys filling the generation tier to capacity in the C4
counterexample: the empty-string key first, then 999 distinct three-letter
keys. -/
def c4FillKeys : List String := "" :: (List.range 999).map ckey

/-- The C4 counterexample operation sequence: fill the generation tier to
its `maxSize` of 1000 (the empty-string key being the least recently
used), then set one more fresh key. -/
def c4Ops : List (CacheOp Nat) :=
  (c4FillKeys ++ [ckey 999]).map (fun k => CacheOp.set k 0 0)

/-! ## General helper lemmas -/

/-- Characters below the Unicode surrogate range round-trip through
`Char.ofNat`. -/
theorem toNat_ofNat_small {n : Nat} (h : n < 55296) : (Char.ofNat n).toNat = n := by
  have hv : n.isValidChar := Or.inl h
  simp only [Char.ofNat, dif_pos hv, Char.ofNatAux, Char.toNat, UInt32.toNat]
  exact BitVec.toNat_ofNatLt _ _

/-- The character order agrees with the code-point order. -/
theorem char_le_iff {a b : Char} : a ≤ b ↔ a.toNat ≤ b.toNat := Char.le_def

/-- `ciEq a c` forces `c = a` when `a` is not a letter of either case. -/
theorem ciEq_eq_of_nonletter {a c : Char} (ha1 : a.toNat < 65 ∨ 90 < a.toNat)
    (ha2 : a.toNat < 97 ∨ 122 < a.toNat) (h : ciEq a c = true) : c = a := by
  simp only [ciEq, beq_iff_eq] at h
  have haSelf : toLowerAscii a = a := by
    unfold toLowerAscii
    rw [if_neg]
    intro hc
    have h1 := char_le_iff.mp hc.1
    have h2 := char_le_iff.mp hc.2
    simp only [show ('A' : Char).toNat = 65 from rfl,
      show ('Z' : Char).toNat = 90 from rfl] at h1 h2
    omega
  rw [haSelf] at h
  unfold toLowerAscii at h
  by_cases hc : 'A' ≤ c ∧ c ≤ 'Z'
  · rw [if_pos hc] at h
    have h1 := char_le_iff.mp hc.1
    have h2 := char_le_iff.mp hc.2
    simp only [show ('A' : Char).toNat = 65 from rfl,
      show ('Z' : Char).toNat = 90 from rfl] at h1 h2
    have := congrArg Char.toNat h
    rw [toNat_ofNat_small (by omega)] at this
    omega
  · rw [if_neg hc] at h
    exact h.symm

/-- A pattern matches at the head of itself followed by anything. -/
theorem matchPrefCI_self_append (pat rest : List Char) :
    matchPrefCI pat (pat ++ rest) = true := by
  induction pat with
  | nil => rfl
  | cons c cs ih => simp [matchPrefCI, ih, ciEq]

/-- If the predicate holds of the whole list, the tail search succeeds. -/
theorem anyTail_of_here {p : List Char → Bool} {l : List Char}
    (h : p l = true) : anyTail p l = true := by
  cases l with
  | nil => exact h
  | cons c cs => simp [anyTail, h]

/-- Tail-search monotonicity: a pointwise-weaker predicate also matches. -/
theorem anyTail_mono {f g : List Char → Bool}
    (h : ∀ t, f t = true → g t = true) {l : List Char}
    (hf : anyTail f l = true) : anyTail g l = true := by
  induction l with
  | nil => exact h [] hf
  | cons c cs ih =>
      simp only [anyTail, Bool.or_eq_true] at hf ⊢
      cases hf with
      | inl hh => exact Or.inl (h _ hh)
      | inr ht => exact Or.inr (ih ht)

/-- Splitting a prefix match of a concatenated pattern. -/
theorem matchPrefCI_append {p1 p2 t : List Char}
    (h : matchPrefCI (p1 ++ p2) t = true) :
    ∃ r, dropPrefCI p1 t = some r ∧ matchPrefCI p2 r = true := by
  induction p1 generalizing t with
  | nil => exact ⟨t, rfl, h⟩
  | cons p ps ih =>
      cases t with
      | nil => simp [matchPrefCI] at h
      | cons c cs =>
          simp only [List.cons_append, matchPrefCI, Bool.and_eq_true] at h
          obtain ⟨r, hr, hm⟩ := ih h.2
          exact ⟨r, by simp [dropPrefCI, h.1, hr], hm⟩

/-! ## Claim C2: lemmas about detectDangerousPatterns -/

/-- `syncSafeRegexTest` never reports a timeout (elapsed time is zero in
the model). -/
theorem syncSafeRegexTest_not_timedOut (t : String → Bool) (src input : String)
    (m : Nat) : (syncSafeRegexTest t src input m).timedOut = false := by
  unfold syncSafeRegexTest
  split <;> [rfl; skip]
  split <;> rfl

/-- Each detection step either keeps the accumulator or appends the
pattern's match entry and maximizes the risk level. -/
theorem detectStep_cases (input : String) (m0 : List MatchedPattern)
    (h0 : String) (p : DangerPattern) :
    detectStep input (m0, h0) p = (m0, h0) ∨
    detectStep input (m0, h0) p =
      (m0 ++ [⟨p.name, p.description, p.riskLevel⟩],
        updRisk h0 ⟨p.name, p.description, p.riskLevel⟩) := by
  simp only [detectStep]
  rw [syncSafeRegexTest_not_timedOut]
  simp only [Bool.false_eq_true, if_false]
  by_cases he : (syncSafeRegexTest p.test p.source input 50000).error.isSome = true
  · rw [if_pos he]; exact Or.inl rfl
  · rw [if_neg he]
    by_cases hr : (syncSafeRegexTest p.test p.source input 50000).result = true
    · rw [if_pos hr]; exact Or.inr rfl
    · rw [if_neg hr]; exact Or.inl rfl

/-- A firing pattern appends its entry. -/
theorem detectStep_fires {input : String} {p : DangerPattern}
    (h : patternFires input p) (m0 : List MatchedPattern) (h0 : String) :
    detectStep input (m0, h0) p =
      (m0 ++ [⟨p.name, p.description, p.riskLevel⟩],
        updRisk h0 ⟨p.name, p.description, p.riskLevel⟩) := by
  simp only [detectStep]
  rw [syncSafeRegexTest_not_timedOut, h.1]
  simp only [Option.isSome_none, Bool.false_eq_true, if_false, h.2, if_true]
  rfl

/-- Shape of the detection fold: the matched list grows by some `d` and the
running risk level is the `updRisk` fold of `d`. -/
theorem detect_foldl_shape (ps : List DangerPattern) (input : String)
    (m0 : List MatchedPattern) (h0 : String) :
    ∃ d, ps.foldl (detectStep input) (m0, h0) =
      (m0 ++ d, d.foldl updRisk h0) := by
  induction ps generalizing m0 h0 with
  | nil => exact ⟨[], by simp⟩
  | cons p ps ih =>
      rcases detectStep_cases input m0 h0 p with hstep | hstep
      · obtain ⟨d, hd⟩ := ih m0 h0
        exact ⟨d, by simp [List.foldl_cons, hstep, hd]⟩
      · obtain ⟨d, hd⟩ := ih (m0 ++ [⟨p.name, p.description, p.riskLevel⟩])
          (updRisk h0 ⟨p.name, p.description, p.riskLevel⟩)
        refine ⟨⟨p.name, p.description, p.riskLevel⟩ :: d, ?_⟩
        simp [List.foldl_cons, hstep, hd]

/-- If a member pattern fires, the fold collects at least one match. -/
theorem detect_foldl_fires {input : String} {p : DangerPattern}
    {ps : List DangerPattern} (hmem : p ∈ ps) (hfires : patternFires input p) :
    ∀ m0 h0, (ps.foldl (detectStep input) (m0, h0)).1 ≠ [] := by
  induction ps with
  | nil => cases hmem
  | cons q qs ih =>
      intro m0 h0
      rcases List.mem_cons.mp hmem with rfl | hmem'
      · rw [List.foldl_cons, detectStep_fires hfires]
        obtain ⟨d, hd⟩ := detect_foldl_shape qs input
          (m0 ++ [⟨p.name, p.description, p.riskLevel⟩])
          (updRisk h0 ⟨p.name, p.description, p.riskLevel⟩)
        rw [hd]
        simp
      · rw [List.foldl_cons]
        rcases detectStep_cases input m0 h0 q with hstep | hstep <;>
          rw [hstep] <;> exact ih hmem' _ _

/-- A pattern with a structurally safe source fires on any in-budget input
its test matches. -/
theorem patternFires_of_test {input : String} {p : DangerPattern}
    (hsrc : isDangerousRegex p.source = false) (hlen : input.length ≤ 50000)
    (ht : p.test input = true) : patternFires input p := by
  unfold patternFires syncSafeRegexTest
  rw [if_neg (by omega), if_neg (by simp [hsrc])]
  exact ⟨rfl, ht⟩

/-- Bridge from plain `expression(` containment to the
`expression\s*\(` pattern test. -/
theorem testCssExpression_of_contains {s : String}
    (h : containsCI "expression(".data s.data = true) :
    testCssExpression s = true := by
  unfold containsCI at h
  unfold testCssExpression
  refine anyTail_mono (fun t hf => ?_) h
  have hsplit : "expression(".data = "expression".data ++ ['('] := rfl
  rw [hsplit] at hf
  obtain ⟨r, hr, hm⟩ := matchPrefCI_append hf
  unfold prefThenWsChar
  rw [hr]
  cases r with
  | nil => simp [matchPrefCI] at hm
  | cons c cs =>
      simp only [matchPrefCI, Bool.and_eq_true] at hm
      have hcp : c = '(' :=
        ciEq_eq_of_nonletter (by decide) (by decide) hm.1
      subst hcp
      rfl

/-- C2 second conjunct packaging: `detectDangerousPatterns` is the fold of
`detectStep` with nil start. -/
theorem detect_eq_fold (input : String) :
    ∃ d, detectDangerousPatterns input =
      ⟨decide (0 < d.length), d, specRiskMax d, some input.length⟩ := by
  obtain ⟨d, hd⟩ := detect_foldl_shape DANGEROUS_PATTERNS input [] "none"
  refine ⟨d, ?_⟩
  unfold detectDangerousPatterns
  rw [hd]
  rfl

/-- C2 (amended): for every string of length at most 50000 that contains
`javascript:`, `<script`, or `expression(` case-insensitively,
`detectDangerousPatterns` reports `isDangerous = true`; and for every
string whatsoever, the reported `riskLevel` is the maximum (under
none < low < medium < high < critical) of the risk levels of the matched
patterns.  (Inputs longer than 50000 characters make every safe-regex
evaluation error out and are skipped, see the counterexample.) -/
theorem claim2_dangerous_patterns_detected :
    (∀ s : String, s.length ≤ 50000 →
      (containsCI "javascript:".data s.data = true ∨
       containsCI "<script".data s.data = true ∨
       containsCI "expression(".data s.data = true) →
      (detectDangerousPatterns s).isDangerous = true) ∧
    (∀ s : String, (detectDangerousPatterns s).riskLevel =
      specRiskMax (detectDangerousPatterns s).matchedPatterns) := by
  constructor
  · intro s hlen hcontains
    have hne : (DANGEROUS_PATTERNS.foldl (detectStep s) ([], "none")).1 ≠ [] := by
      rcases hcontains with h | h | h
      · exact detect_foldl_fires (p := dpJavascriptUrl)
          (by simp [DANGEROUS_PATTERNS])
          (patternFires_of_test (by decide) hlen h) [] "none"
      · exact detect_foldl_fires (p := dpHtmlScript)
          (by simp [DANGEROUS_PATTERNS])
          (patternFires_of_test (by decide) hlen h) [] "none"
      · exact detect_foldl_fires (p := dpCssExpression)
          (by simp [DANGEROUS_PATTERNS])
          (patternFires_of_test (by decide) hlen
            (testCssExpression_of_contains h)) [] "none"
    obtain ⟨d, hfold⟩ := detect_foldl_shape DANGEROUS_PATTERNS s [] "none"
    have hdne : d ≠ [] := by
      intro hnil
      apply hne
      rw [hfold, hnil]
      rfl
    unfold detectDangerousPatterns
    rw [hfold]
    simpa using List.length_pos.mpr hdne
  · intro s
    obtain ⟨d, hd⟩ := detect_eq_fold s
    rw [hd]

/-- C2 witness: a concrete dangerous string is detected. -/
theorem claim2_witness :
    (detectDangerousPatterns "javascript:x").isDangerous = true :=
  claim2_dangerous_patterns_detected.1 "javascript:x" (by decide)
    (Or.inl (by decide))

/-- The over-long input does contain `javascript:`. -/
theorem bigStringC2_contains_javascript :
    containsCI "javascript:".data bigStringC2.data = true := by
  show anyTail (matchPrefCI "javascript:".data) bigStringC2.data = true
  have e : bigStringC2.data =
      "javascript:".data ++ List.replicate 49990 'a' := rfl
  rw [e]
  exact anyTail_of_here (matchPrefCI_self_append _ _)

/-- Yet the over-long input is reported safe: every per-pattern safe-regex
evaluation errors out on the length check and the loop skips it. -/
theorem bigStringC2_reported_safe :
    (detectDangerousPatterns bigStringC2).isDangerous = false := by
  have hlen : bigStringC2.length > 50000 := by
    show ("javascript:".data ++ List.replicate 49990 'a').length > 50000
    rw [List.length_append, List.length_replicate,
      show ("javascript:".data.length = 11) from rfl]
    omega
  have hstep : ∀ (acc : List MatchedPattern × String) p,
      detectStep bigStringC2 acc p = acc := by
    intro acc p
    simp only [detectStep, syncSafeRegexTest]
    split
    · rfl
    · next h => exact absurd hlen h
  have hfold : DANGEROUS_PATTERNS.foldl (detectStep bigStringC2)
      ([], "none") = ([], "none") := by
    unfold DANGEROUS_PATTERNS
    simp only [List.foldl_cons, List.foldl_nil, hstep]
  unfold detectDangerousPatterns
  rw [hfold]
  rfl

/-- C2 counterexample: the claim as stated fails on inputs longer than the
50000-character regex budget — this 50001-character string contains
`javascript:` yet is classified safe. -/
theorem claim2_counterexample_overlong_input :
    containsCI "javascript:".data bigStringC2.data = true ∧
    (detectDangerousPatterns bigStringC2).isDangerous = false :=
  ⟨bigStringC2_contains_javascript, bigStringC2_reported_safe⟩

/-! ## Claim C1 -/

set_option maxRecDepth 8000 in
/-- C1: the bracket token `p-[24px]` is REJECTED by `parseClassCore` with
"Unknown syntax pattern", even though the bracket regex itself matches and
`parseBracketSyntax` would have produced the documented
padding/24px `ParsedClass` — `safeRegexMatch` returns an object whose
`length` property does not exist, so `bracketMatches.length >= 3` compares
`undefined` with 3 and is false. -/
theorem claim1_bracket_parse_rejected :
    parseClassCore "p-[24px]" = .error ⟨"INVALID_CLASS_SYNTAX",
      "Invalid class syntax in \"p-[24px]\": Unknown syntax pattern",
      ["Use bracket syntax: property-[value]"]⟩ ∧
    bracketMatch "p-[24px]" = some ("p", "24px") ∧
    jsGe ((safeRegexMatchBracket "p-[24px]").getField "length")
      (JSVal.num 3) = false ∧
    parseBracketSyntax "p" "24px" = .success ⟨"p-[24px]", "p", "padding",
      "24px", "24px", ["24px"], "bracket", ".p-\\[24px\\]", false⟩ := by
  refine ⟨by decide, by decide, by decide, by decide⟩

/-! ## Claim C3 -/

set_option maxRecDepth 8000 in
/-- C3: `validateValue` on the color property ACCEPTS the out-of-range
`rgb(256,0,0)` and `hsl(400,50%,50%)` through the `isCSSColor` fast path
(which matches `rgb(...)`/`hsl(...)` with arbitrary non-`)` contents),
even though the dedicated range validators reject exactly those values;
the in-range values are accepted as the claim states. -/
theorem claim3_color_fastpath_accepts_out_of_range :
    (validateValue "rgb(256,0,0)" .color).isValid = true ∧
    (validateValue "hsl(400,50%,50%)" .color).isValid = true ∧
    (validateValue "rgb(255,0,0)" .color).isValid = true ∧
    (validateValue "hsl(360,100%,50%)" .color).isValid = true ∧
    (validateRGBColor "rgb(256,0,0)").isValid = false ∧
    (validateHSLColor "hsl(400,50%,50%)").isValid = false ∧
    isCSSColor "rgb(256,0,0)" = true := by
  refine ⟨by decide, by decide, by decide, by decide, by decide, by decide,
    by decide⟩

/-! ## Claim C10 -/

/-- C10: on every non-string JS value the two public threat predicates
disagree — `detectDangerousPatterns` reports the input as safe while
`isSafeInput` reports it as unsafe. -/
theorem claim10_nonstring_disagreement :
    ∀ v : JSVal, v.isString = false →
      detectDangerousPatternsJS v = ⟨false, [], "none", none⟩ ∧
      isSafeInputJS v = false := by
  intro v hv
  cases v <;>
    simp_all [detectDangerousPatternsJS, isSafeInputJS, JSVal.isString]

/-- C10 witness: the disagreement at the concrete non-string input `7`. -/
theorem claim10_witness :
    detectDangerousPatternsJS (.num 7) = ⟨false, [], "none", none⟩ ∧
    isSafeInputJS (.num 7) = false :=
  claim10_nonstring_disagreement (.num 7) rfl

/-! ## Association-list lemmas for the cache model -/

/-- Absent keys have a false `any` scan. -/
theorem lookup_none_iff_any_false {β : Type} (k : String)
    (l : List (String × β)) :
    l.lookup k = none ↔ l.any (fun p => p.1 == k) = false := by
  induction l with
  | nil => simp
  | cons a t ih =>
      cases a with
      | mk a1 a2 =>
          by_cases h : k = a1
          · subst h
            simp [List.lookup]
          · have hk : (k == a1) = false := by simpa using h
            have hk2 : (a1 == k) = false := by
              simp only [beq_eq_false_iff_ne] at hk ⊢
              exact fun hc => h hc.symm
            simp [List.lookup, hk, hk2, ih]

/-- Erasing a key makes its lookup miss. -/
theorem lookup_mapErase_self {β : Type} (k : String)
    (l : List (String × β)) : (mapErase k l).lookup k = none := by
  induction l with
  | nil => rfl
  | cons a t ih =>
      unfold mapErase at ih ⊢
      by_cases h : a.1 = k
      · simp only [List.filter, h]
        rw [show (decide ¬k = k) = false by simp]
        exact ih
      · simp only [List.filter]
        rw [show (decide ¬a.1 = k) = true by simp [h]]
        have hk : (k == a.1) = false := by
          simp only [beq_eq_false_iff_ne]
          exact fun hc => h hc.symm
        simp only [List.lookup, hk]
        exact ih

/-- Filtering preserves a missing key. -/
theorem lookup_filter_none {β : Type} (k : String)
    (l : List (String × β)) (p : String × β → Bool)
    (h : l.lookup k = none) : (l.filter p).lookup k = none := by
  induction l with
  | nil => rfl
  | cons a t ih =>
      cases hk : (k == a.1) with
      | true =>
          simp only [List.lookup, hk] at h
          cases h
      | false =>
          simp only [List.lookup, hk] at h
          simp only [List.filter]
          cases hp : p a
          · exact ih h
          · simp only [List.lookup, hk]
            exact ih h

/-- Lookup skips a prefix without the key. -/
theorem lookup_append_right {β : Type} (k : String)
    (l1 l2 : List (String × β)) (h : l1.lookup k = none) :
    (l1 ++ l2).lookup k = l2.lookup k := by
  induction l1 with
  | nil => rfl
  | cons a t ih =>
      cases hk : (k == a.1) with
      | true =>
          simp only [List.lookup, hk] at h
          cases h
      | false =>
          simp only [List.lookup, hk] at h
          simp only [List.cons_append, List.lookup, hk]
          exact ih h

/-- `Map.set` on an absent key appends. -/
theorem mapSet_of_absent {β : Type} (k : String) (v : β)
    (l : List (String × β)) (h : l.lookup k = none) :
    mapSet k v l = l ++ [(k, v)] := by
  unfold mapSet
  rw [if_neg]
  rw [(lookup_none_iff_any_false k l).mp h]
  simp

/-- `evictLRU` never adds a key: a missing lookup stays missing. -/
theorem evictLRU_lookup_none {α : Type} (c : LRUCache α) (k : String)
    (h : c.cache.lookup k = none) : (c.evictLRU).cache.lookup k = none := by
  unfold LRUCache.evictLRU
  split
  · exact h
  · split
    · exact h
    · split
      · exact h
      · exact lookup_filter_none k c.cache _ h

/-- After `set k`, looking `k` up yields the freshly stamped entry. -/
theorem set_lookup_self {α : Type} (c : LRUCache α) (k : String) (v : α)
    (now : Int) :
    (c.set k v now).cache.lookup k = some ⟨v, now, 1⟩ := by
  unfold LRUCache.set
  simp only
  set c1 := if (c.cache.lookup k).isSome then
      { c with cache := mapErase k c.cache,
               accessOrder := mapErase k c.accessOrder }
    else c with hc1
  have h1 : c1.cache.lookup k = none := by
    rw [hc1]
    split
    · exact lookup_mapErase_self k c.cache
    · next hns =>
        cases hl : c.cache.lookup k with
        | none => rfl
        | some e => rw [hl] at hns; simp at hns
  set c2 := if c1.cache.length ≥ c1.maxSize then c1.evictLRU else c1 with hc2
  have h2 : c2.cache.lookup k = none := by
    rw [hc2]
    split
    · exact evictLRU_lookup_none c1 k h1
    · exact h1
  show (mapSet k ⟨v, now, 1⟩ c2.cache).lookup k = some ⟨v, now, 1⟩
  rw [mapSet_of_absent k _ _ h2, lookup_append_right k _ _ h2]
  simp [List.lookup]

/-! ## Claim C5 -/

/-- C5: TTL semantics of `get` — an entry present with timestamp `T` is
returned while `now − T ≤ ttl` and is reported as a miss and deleted once
`now − T > ttl`; and `set` stamps the inserted entry with the insertion
time, tying `T` to the time of the `set`. -/
theorem claim5_ttl_get (α : Type) :
    (∀ (c : LRUCache α) (k : String) (e : CacheEntry α) (now : Int),
      c.cache.lookup k = some e →
      ((now - e.timestamp ≤ c.ttl → (c.get k now).1 = some e.value) ∧
       (now - e.timestamp > c.ttl → (c.get k now).1 = none ∧
         (c.get k now).2.cache.lookup k = none))) ∧
    (∀ (c : LRUCache α) (k : String) (v : α) (now : Int),
      (c.set k v now).cache.lookup k = some ⟨v, now, 1⟩) := by
  constructor
  · intro c k e now hl
    constructor
    · intro hle
      unfold LRUCache.get
      rw [hl]
      simp only
      rw [if_neg (by omega)]
    · intro hgt
      unfold LRUCache.get
      rw [hl]
      simp only
      rw [if_pos hgt]
      exact ⟨rfl, lookup_mapErase_self k c.cache⟩
  · exact set_lookup_self

/-- C5 witness: a singleton cache with ttl 10 and an entry stamped at time
0 hits at time 10 and misses (and is deleted) at time 11; the stamped
entry is exactly what `set` at time 0 inserted. -/
theorem claim5_witness :
    ((⟨5, 10, [("k", ⟨42, 0, 1⟩)], [("k", 0)]⟩ : LRUCache Nat).get "k" 10).1
        = some 42 ∧
    ((⟨5, 10, [("k", ⟨42, 0, 1⟩)], [("k", 0)]⟩ : LRUCache Nat).get "k" 11).1
        = none ∧
    (((⟨5, 10, [("k", ⟨42, 0, 1⟩)], [("k", 0)]⟩ : LRUCache Nat).get "k" 11).2.cache.lookup "k")
        = none ∧
    (((LRUCache.init Nat 5 10).set "k" 42 0).cache.lookup "k")
        = some ⟨42, 0, 1⟩ := by
  refine ⟨?_, ?_, ?_, ?_⟩
  · exact ((claim5_ttl_get Nat).1 _ "k" ⟨42, 0, 1⟩ 10 (by decide)).1 (by decide)
  · exact (((claim5_ttl_get Nat).1 _ "k" ⟨42, 0, 1⟩ 11 (by decide)).2 (by decide)).1
  · exact (((claim5_ttl_get Nat).1 _ "k" ⟨42, 0, 1⟩ 11 (by decide)).2 (by decide)).2
  · exact (claim5_ttl_get Nat).2 (LRUCache.init Nat 5 10) "k" 42 0

/-! ## Claim C9 -/

/-- C9: on an expired but not yet purged entry, `has` answers `true`
(it performs no TTL check) while `get` answers `none` and deletes the
entry — so `has k = true` does not imply `get k` yields a value. -/
theorem claim9_has_get_disagree (α : Type) :
    ∀ (c : LRUCache α) (k : String) (e : CacheEntry α) (now : Int),
      c.cache.lookup k = some e → now - e.timestamp > c.ttl →
      c.has k = true ∧ (c.get k now).1 = none ∧
      (c.get k now).2.cache.lookup k = none := by
  intro c k e now hl hgt
  refine ⟨?_, ?_, ?_⟩
  · unfold LRUCache.has
    rw [hl]
    rfl
  · unfold LRUCache.get
    rw [hl]
    simp only
    rw [if_pos hgt]
  · unfold LRUCache.get
    rw [hl]
    simp only
    rw [if_pos hgt]
    exact lookup_mapErase_self k c.cache

/-- C9 witness: the disagreement at a concrete expired entry. -/
theorem claim9_witness :
    (⟨5, 10, [("k", ⟨42, 0, 1⟩)], [("k", 0)]⟩ : LRUCache Nat).has "k" = true ∧
    ((⟨5, 10, [("k", ⟨42, 0, 1⟩)], [("k", 0)]⟩ : LRUCache Nat).get "k" 11).1
        = none ∧
    ((⟨5, 10, [("k", ⟨42, 0, 1⟩)], [("k", 0)]⟩ : LRUCache Nat).get "k" 11).2.cache.lookup "k"
        = none :=
  claim9_has_get_disagree Nat _ "k" ⟨42, 0, 1⟩ 11 (by decide) (by decide)

/-! ## Claim C8 -/

/-- Sorting depends only on the multiset of classes. -/
theorem sortClasses_perm {l1 l2 : List String} (h : l1.Perm l2) :
    sortClasses l1 = sortClasses l2 := by
  unfold sortClasses
  congr 1
  exact Multiset.coe_eq_coe.mpr h

/-- C8: the generation-cache key is invariant under permutation of the
class array and under the `important` and `scope` options (only `minify`,
`groupSelectors` and `includeComments` are read), so `withGenerationCache`
serves the identical cache slot — and hence a cached CSS result — to a
request differing only in `important` or `scope`. -/
theorem claim8_generation_key_invariance :
    (∀ (l1 l2 : List String) (o1 o2 : GenOptions), l1.Perm l2 →
      o1.minify = o2.minify → o1.groupSelectors = o2.groupSelectors →
      o1.includeComments = o2.includeComments →
      createGenerationKey l1 o1 = createGenerationKey l2 o2) ∧
    (∀ (α : Type) (tier : LRUCache α) (l1 l2 : List String)
      (o1 o2 : GenOptions) (now : Int), l1.Perm l2 →
      o1.minify = o2.minify → o1.groupSelectors = o2.groupSelectors →
      o1.includeComments = o2.includeComments →
      getCachedGeneratedCSS tier l1 o1 now =
        getCachedGeneratedCSS tier l2 o2 now) := by
  have hkey : ∀ (l1 l2 : List String) (o1 o2 : GenOptions), l1.Perm l2 →
      o1.minify = o2.minify → o1.groupSelectors = o2.groupSelectors →
      o1.includeComments = o2.includeComments →
      createGenerationKey l1 o1 = createGenerationKey l2 o2 := by
    intro l1 l2 o1 o2 hperm hm hg hi
    unfold createGenerationKey
    rw [sortClasses_perm hperm]
    have : normalizedOptionsTriple o1 = normalizedOptionsTriple o2 := by
      unfold normalizedOptionsTriple
      rw [hm, hg, hi]
    rw [this]
  refine ⟨hkey, ?_⟩
  intro α tier l1 l2 o1 o2 now hperm hm hg hi
  unfold getCachedGeneratedCSS
  rw [hkey l1 l2 o1 o2 hperm hm hg hi]

/-- C8 witness: permuted classes with options differing only in
`important` and `scope` produce the identical generation key and the
identical cache answer. -/
theorem claim8_witness :
    createGenerationKey ["b", "a"]
        ⟨some false, none, none, some true, some "x"⟩ =
      createGenerationKey ["a", "b"] ⟨some false, none, none, none, none⟩ ∧
    getCachedGeneratedCSS (LRUCache.init Nat 5 10) ["b", "a"]
        ⟨some false, none, none, some true, some "x"⟩ 0 =
      getCachedGeneratedCSS (LRUCache.init Nat 5 10) ["a", "b"]
        ⟨some false, none, none, none, none⟩ 0 :=
  ⟨claim8_generation_key_invariance.1 ["b", "a"] ["a", "b"] _ _
      (List.Perm.swap "a" "b" []) rfl rfl rfl,
    claim8_generation_key_invariance.2 Nat (LRUCache.init Nat 5 10)
      ["b", "a"] ["a", "b"] _ _ 0 (List.Perm.swap "a" "b" []) rfl rfl rfl⟩

/-! ## Claim C7 -/

/-- The batch loop appends, to each accumulator, the image of the not yet
seen tokens under the per-token parse. -/
theorem parseLoop_eq (classes : List String) : ∀ (seen : List String)
    (p : List ParsedClass) (i : List InvalidEntry),
    parseLoop classes seen p i =
      ⟨p ++ (dedupFirstAux seen classes).filterMap
          (fun c => (parseClass c).toSuccess),
       i ++ (dedupFirstAux seen classes).filterMap invalidEntryOf⟩ := by
  induction classes with
  | nil => intro seen p i; simp [parseLoop, dedupFirstAux]
  | cons c rest ih =>
      intro seen p i
      unfold parseLoop dedupFirstAux
      by_cases h : seen.contains c = true
      · rw [if_pos h, if_pos h]
        exact ih seen p i
      · rw [if_neg h, if_neg h]
        cases hp : parseClass c with
        | success d =>
            simp only [ih]
            simp [List.filterMap_cons, hp, ZyraResult.toSuccess,
              invalidEntryOf]
        | error e =>
            simp only [ih]
            simp [List.filterMap_cons, hp, ZyraResult.toSuccess,
              invalidEntryOf]

/-- Deduplication membership: a token survives iff it occurs and was not
yet seen. -/
theorem dedupFirstAux_mem (l : List String) : ∀ (seen : List String)
    (c : String), c ∈ dedupFirstAux seen l ↔ c ∈ l ∧ c ∉ seen := by
  induction l with
  | nil => intro seen c; simp [dedupFirstAux]
  | cons a r ih =>
      intro seen c
      unfold dedupFirstAux
      by_cases h : seen.contains a = true
      · have ha : a ∈ seen := by
          have := List.elem_iff.mp h
          simpa using this
        rw [if_pos h, ih]
        constructor
        · rintro ⟨hr, hs⟩
          exact ⟨List.mem_cons_of_mem a hr, hs⟩
        · rintro ⟨hm, hs⟩
          rcases List.mem_cons.mp hm with hca | hr
          · exact absurd (hca ▸ ha) hs
          · exact ⟨hr, hs⟩
      · have ha : a ∉ seen := by
          intro hm
          exact h (List.elem_iff.mpr hm)
        rw [if_neg h, List.mem_cons, ih (a :: seen) c]
        constructor
        · rintro (hca | ⟨hr, hs⟩)
          · subst hca
            exact ⟨List.mem_cons_self c r, ha⟩
          · exact ⟨List.mem_cons_of_mem a hr,
              fun hm => hs (List.mem_cons_of_mem a hm)⟩
        · rintro ⟨hm, hs⟩
          rcases List.mem_cons.mp hm with hca | hr
          · exact Or.inl hca
          · by_cases hc : c = a
            · exact Or.inl hc
            · refine Or.inr ⟨hr, ?_⟩
              intro hm2
              rcases List.mem_cons.mp hm2 with h1 | h2
              · exact hc h1
              · exact hs h2

/-- Deduplication yields a duplicate-free list. -/
theorem dedupFirstAux_nodup (l : List String) : ∀ (seen : List String),
    (dedupFirstAux seen l).Nodup := by
  induction l with
  | nil => intro seen; simp [dedupFirstAux]
  | cons a r ih =>
      intro seen
      unfold dedupFirstAux
      by_cases h : seen.contains a = true
      · rw [if_pos h]; exact ih seen
      · rw [if_neg h]
        refine List.nodup_cons.mpr ⟨?_, ih (a :: seen)⟩
        intro hm
        exact ((dedupFirstAux_mem r (a :: seen) a).mp hm).2 (List.mem_cons_self a _)

/-- C7: batch isolation and deduplication — `parseClasses` on an array is
exactly the per-token parse mapped over the duplicate-free first-occurrence
sublist of the input: the parsed list holds the `ParsedClass` of every
distinct succeeding token, the invalid list holds a structured
`{className, error, suggestions}` entry for every distinct failing token
(so no failing token disturbs the others), the processed token list is
duplicate-free and carries exactly the distinct input tokens, and the
string form first tokenizes on whitespace and then runs the same batch. -/
theorem claim7_batch_isolation :
    (∀ classes : List String,
      (parseClassesList classes).parsed =
        (dedupFirst classes).filterMap (fun c => (parseClass c).toSuccess) ∧
      (parseClassesList classes).invalid =
        (dedupFirst classes).filterMap invalidEntryOf ∧
      (dedupFirst classes).Nodup ∧
      (∀ c, c ∈ dedupFirst classes ↔ c ∈ classes)) ∧
    (∀ s : String, parseClassesString s = parseClassesList (splitWsTokens s)) := by
  constructor
  · intro classes
    have h := parseLoop_eq classes [] [] []
    unfold parseClassesList dedupFirst
    rw [h]
    refine ⟨by simp, by simp, dedupFirstAux_nodup classes [], ?_⟩
    intro c
    rw [dedupFirstAux_mem classes [] c]
    simp
  · intro s
    rfl

/-! ## Claim C6 -/

/-- `removeTrailingEmpty` steps over a head with a nonempty tail. -/
theorem removeTrailingEmpty_cons₂ (x y : List Char) (t : List (List Char)) :
    removeTrailingEmpty (x :: y :: t) = x :: removeTrailingEmpty (y :: t) :=
  rfl

/-- The `smartCommaSplit` loop computes the depth-zero comma segmentation:
the pending reversed accumulator is prepended to the first remaining
segment and a trailing empty segment is dropped. -/
theorem smartAux_eq (cs : List Char) : ∀ (current : List Char) (d : Int),
    smartCommaSplitAux current d cs =
      removeTrailingEmpty ((current.reverse ++ (topSplitGo d cs).1) ::
        (topSplitGo d cs).2) := by
  induction cs with
  | nil =>
      intro current d
      unfold smartCommaSplitAux topSplitGo removeTrailingEmpty
      by_cases h : current = []
      · subst h; simp
      · rw [if_neg h, List.append_nil, if_neg (by simpa using h)]
  | cons c cs ih =>
      intro current d
      unfold smartCommaSplitAux topSplitGo
      by_cases h1 : c = '('
      · rw [if_pos h1, if_pos h1, ih (c :: current) (d + 1)]
        simp [List.append_assoc]
      · rw [if_neg h1, if_neg h1]
        by_cases h2 : c = ')'
        · rw [if_pos h2, if_pos h2, ih (c :: current) (d - 1)]
          simp [List.append_assoc]
        · rw [if_neg h2, if_neg h2]
          by_cases h3 : c = ',' ∧ d = 0
          · rw [if_pos h3, if_pos h3, ih [] d]
            rw [List.append_nil, removeTrailingEmpty_cons₂]
            simp
          · rw [if_neg h3, if_neg h3, ih (c :: current) d]
            simp [List.append_assoc]

/-- C6 counterexample: in `"rgb(0,0,0) x"` the function call is followed
by trailing text, so the value is not a single whole-value function call;
`parseCSSSyntax` nevertheless marks it `isFunction = true` and passes it
through unsplit, because `containsCSSFunction` is a substring test. -/
theorem claim6_counterexample_trailing_text :
    parseCSSSyntax "rgb(0,0,0) x" =
      some ⟨"rgb(0,0,0) x", ["rgb(0,0,0) x"], true⟩ ∧
    isEntireSingleFunctionSpec "rgb(0,0,0) x" = false := by
  constructor
  · rfl
  · rfl

/-- C6 (amended): `parseCSSSyntax` marks `isFunction = true` exactly when
`containsCSSFunction` finds a known `name(` substring anywhere in the
value (not only when the whole value is a single call), in which case the
trimmed value is passed through whole with no comma splitting; every other
nonempty value is split at top-level commas only — `smartCommaSplit`
coincides with the depth-zero comma segmentation with a trailing empty
segment dropped and a whole-value fallback — a single part is passed
through, and several parts are trimmed and joined with single spaces. -/
theorem claim6_isfunction_substring :
    (∀ v : String, v ≠ "" →
      ∃ r, parseCSSSyntax v = some r ∧
        r.isFunction = containsCSSFunction v ∧
        (containsCSSFunction v = true → r = ⟨jsTrim v, [jsTrim v], true⟩) ∧
        (containsCSSFunction v = false →
          (∀ x, smartCommaSplit v = [x] → r = ⟨jsTrim x, [x], false⟩) ∧
          ((smartCommaSplit v).length ≠ 1 →
            r = ⟨String.intercalate " " ((smartCommaSplit v).map jsTrim),
                 (smartCommaSplit v).map jsTrim, false⟩))) ∧
    (∀ s : String, smartCommaSplit s = specTopLevelSplit s) := by
  constructor
  · intro v hne
    unfold parseCSSSyntax
    rw [if_neg hne]
    by_cases hf : containsCSSFunction v = true
    · rw [if_pos hf]
      refine ⟨_, rfl, hf.symm, fun _ => rfl, fun hc => ?_⟩
      rw [hf] at hc
      cases hc
    · rw [if_neg hf]
      have hf' : containsCSSFunction v = false := by
        cases h : containsCSSFunction v
        · rfl
        · exact absurd h hf
      cases hs : smartCommaSplit v with
      | nil =>
          refine ⟨_, rfl, hf'.symm, fun hc => absurd hc hf,
            fun _ => ⟨?_, ?_⟩⟩
          · intro x hx
            cases hx
          · intro _
            rfl
      | cons x xs =>
          cases xs with
          | nil =>
              refine ⟨⟨jsTrim x, [x], false⟩, rfl, hf'.symm,
                fun hc => absurd hc hf, fun _ => ⟨?_, ?_⟩⟩
              · intro y hy
                injection hy with h1 h2
                subst h1
                rfl
              · intro hlen
                exact absurd rfl hlen
          | cons y ys =>
              refine ⟨_, rfl, hf'.symm, fun hc => absurd hc hf,
                fun _ => ⟨?_, ?_⟩⟩
              · intro z hz
                injection hz with h1 h2
                exact absurd h2 (List.cons_ne_nil y ys)
              · intro _
                rfl
  · intro s
    unfold smartCommaSplit specTopLevelSplit
    rw [smartAux_eq s.data [] 0]
    simp only [List.reverse_nil, List.nil_append]
    cases hres : (removeTrailingEmpty ((topSplitGo 0 s.data).1 ::
        (topSplitGo 0 s.data).2)).map String.mk with
    | nil => simp
    | cons a t => simp

/-- C6 witness: the amended theorem at the non-function value
`"10px,20px"` — split at the top-level comma and joined with a single
space — and at the whole-value call `"rgba(0,0,0,1)"` — passed through
unsplit with `isFunction = true`. -/
theorem claim6_witness :
    (∃ r, parseCSSSyntax "10px,20px" = some r ∧
      r.isFunction = containsCSSFunction "10px,20px" ∧
      (containsCSSFunction "10px,20px" = true →
        r = ⟨jsTrim "10px,20px", [jsTrim "10px,20px"], true⟩) ∧
      (containsCSSFunction "10px,20px" = false →
        (∀ x, smartCommaSplit "10px,20px" = [x] →
          r = ⟨jsTrim x, [x], false⟩) ∧
        ((smartCommaSplit "10px,20px").length ≠ 1 →
          r = ⟨String.intercalate " "
                ((smartCommaSplit "10px,20px").map jsTrim),
               (smartCommaSplit "10px,20px").map jsTrim, false⟩))) ∧
    (∃ r, parseCSSSyntax "rgba(0,0,0,1)" = some r ∧
      r.isFunction = containsCSSFunction "rgba(0,0,0,1)" ∧
      (containsCSSFunction "rgba(0,0,0,1)" = true →
        r = ⟨jsTrim "rgba(0,0,0,1)", [jsTrim "rgba(0,0,0,1)"], true⟩) ∧
      (containsCSSFunction "rgba(0,0,0,1)" = false →
        (∀ x, smartCommaSplit "rgba(0,0,0,1)" = [x] →
          r = ⟨jsTrim x, [x], false⟩) ∧
        ((smartCommaSplit "rgba(0,0,0,1)").length ≠ 1 →
          r = ⟨String.intercalate " "
                ((smartCommaSplit "rgba(0,0,0,1)").map jsTrim),
               (smartCommaSplit "rgba(0,0,0,1)").map jsTrim, false⟩))) :=
  ⟨claim6_isfunction_substring.1 "10px,20px" (by decide),
   claim6_isfunction_substring.1 "rgba(0,0,0,1)" (by decide)⟩

/-! ## Claim C4: key-list lemmas -/

/-- Erasing filters the key list. -/
theorem keys_mapErase {β : Type} (k0 : String) (l : List (String × β)) :
    (mapErase k0 l).map Prod.fst =
      (l.map Prod.fst).filter (fun x => decide (x ≠ k0)) := by
  induction l with
  | nil => rfl
  | cons a t ih =>
      unfold mapErase at ih ⊢
      simp only [List.map_cons]
      by_cases hd : a.1 ≠ k0
      · rw [@List.filter_cons_of_pos _ (fun p => decide (p.1 ≠ k0)) a t
            (by simpa using hd),
          @List.filter_cons_of_pos _ (fun x => decide (x ≠ k0)) a.1
            (t.map Prod.fst) (by simpa using hd)]
        simp only [List.map_cons]
        rw [ih]
      · rw [@List.filter_cons_of_neg _ (fun p => decide (p.1 ≠ k0)) a t
            (by simpa using hd),
          @List.filter_cons_of_neg _ (fun x => decide (x ≠ k0)) a.1
            (t.map Prod.fst) (by simpa using hd)]
        exact ih

/-- A key scan is a scan of the key list. -/
theorem any_fst_eq {β : Type} (l : List (String × β)) (k : String) :
    l.any (fun p => p.1 == k) = (l.map Prod.fst).any (fun x => x == k) := by
  induction l with
  | nil => rfl
  | cons a t ih => simp [ih]

/-- Key membership is a true key scan. -/
theorem mem_keys_iff_any {β : Type} (l : List (String × β)) (k : String) :
    k ∈ l.map Prod.fst ↔ l.any (fun p => p.1 == k) = true := by
  rw [any_fst_eq, List.any_eq_true]
  constructor
  · intro hm
    exact ⟨k, hm, by simp⟩
  · rintro ⟨x, hx, hbe⟩
    have hxk : x = k := by simpa using hbe
    exact hxk ▸ hx

/-- A missing key is absent from the key list. -/
theorem not_mem_keys_of_lookup_none {β : Type} (l : List (String × β))
    (k : String) (h : l.lookup k = none) : k ∉ l.map Prod.fst := by
  rw [mem_keys_iff_any]
  rw [(lookup_none_iff_any_false k l).mp h]
  simp

/-- A present key makes the lookup hit. -/
theorem any_of_lookup_some {β : Type} (l : List (String × β)) (k : String)
    (e : β) (h : l.lookup k = some e) : l.any (fun p => p.1 == k) = true := by
  cases hb : l.any (fun p => p.1 == k) with
  | false =>
      rw [(lookup_none_iff_any_false k l).mpr hb] at h
      cases h
  | true => rfl

/-- Erasing an absent key is the identity. -/
theorem mapErase_of_not_mem {β : Type} (k0 : String)
    (l : List (String × β)) (h : k0 ∉ l.map Prod.fst) : mapErase k0 l = l := by
  induction l with
  | nil => rfl
  | cons a t ih =>
      simp only [List.map_cons, List.mem_cons] at h
      push_neg at h
      have ht := ih h.2
      unfold mapErase at ht ⊢
      rw [List.filter_cons_of_pos
        (by simp; exact fun hc => h.1 hc.symm), ht]

/-- Erasing a present key from a duplicate-free map drops one entry. -/
theorem length_mapErase_of_mem {β : Type} (k0 : String)
    (l : List (String × β)) (hnd : (l.map Prod.fst).Nodup)
    (hmem : k0 ∈ l.map Prod.fst) :
    (mapErase k0 l).length + 1 = l.length := by
  induction l with
  | nil => cases hmem
  | cons a t ih =>
      simp only [List.map_cons, List.nodup_cons] at hnd
      simp only [List.map_cons, List.mem_cons] at hmem
      by_cases h : a.1 = k0
      · have ht := mapErase_of_not_mem k0 t (h ▸ hnd.1)
        unfold mapErase at ht ⊢
        rw [List.filter_cons_of_neg (by simp [h]), ht]
        rfl
      · rcases hmem with h1 | h2
        · exact absurd h1.symm h
        · have ht := ih hnd.2 h2
          unfold mapErase at ht ⊢
          rw [List.filter_cons_of_pos
            (by simp; exact fun hc => h hc)]
          simp only [List.length_cons]
          omega

/-- In-place update preserves the key list. -/
theorem keys_map_update {β : Type} (k : String) (v : β)
    (l : List (String × β)) :
    (l.map (fun p => if p.1 == k then (k, v) else p)).map Prod.fst =
      l.map Prod.fst := by
  induction l with
  | nil => rfl
  | cons a t ih =>
      simp only [List.map_cons]
      by_cases hb : a.1 = k
      · rw [if_pos (by simpa using hb)]
        rw [ih]
        show k :: t.map Prod.fst = a.1 :: t.map Prod.fst
        rw [hb]
      · rw [if_neg (by simpa using hb)]
        rw [ih]

/-- `Map.set` on a present key preserves the key list and the length. -/
theorem mapSet_present {β : Type} (k : String) (v : β)
    (l : List (String × β)) (h : l.any (fun p => p.1 == k) = true) :
    (mapSet k v l).map Prod.fst = l.map Prod.fst ∧
    (mapSet k v l).length = l.length := by
  unfold mapSet
  rw [if_pos h]
  exact ⟨keys_map_update k v l, List.length_map _ _⟩

/-- `Map.set` on an absent key appends the key. -/
theorem mapSet_absent {β : Type} (k : String) (v : β)
    (l : List (String × β)) (h : l.any (fun p => p.1 == k) = false) :
    mapSet k v l = l ++ [(k, v)] := by
  unfold mapSet
  rw [h]
  simp

/-- Appending a fresh element keeps a list duplicate-free. -/
theorem nodup_append_singleton {l : List String} {a : String}
    (hnd : l.Nodup) (ha : a ∉ l) : (l ++ [a]).Nodup := by
  rw [List.nodup_append]
  exact ⟨hnd, List.nodup_singleton a, by
    intro x hx hxa
    rw [List.mem_singleton] at hxa
    exact ha (hxa ▸ hx)⟩

/-- The `findOldest` loop returns a candidate with minimal access time:
it is the initial candidate or a listed entry, and its time bounds the
initial time and every listed time. -/
theorem findOldestGo_spec (rest : List (String × Int)) : ∀ (k : String)
    (t : Int), ∃ t0,
    ((findOldest.findOldestGo k t rest, t0) = (k, t) ∨
      (findOldest.findOldestGo k t rest, t0) ∈ rest) ∧
    t0 ≤ t ∧ ∀ p ∈ rest, t0 ≤ p.2 := by
  induction rest with
  | nil => exact fun k t => ⟨t, Or.inl rfl, le_refl t, by simp⟩
  | cons a r ih =>
      intro k t
      cases a with
      | mk k' t' =>
          unfold findOldest.findOldestGo
          by_cases h : t' < t
          · rw [if_pos h]
            obtain ⟨t0, hmem, hle, hall⟩ := ih k' t'
            refine ⟨t0, ?_, le_of_lt (lt_of_le_of_lt hle h), ?_⟩
            · rcases hmem with h1 | h2
              · exact Or.inr (h1 ▸ List.mem_cons_self (k', t') r)
              · exact Or.inr (List.mem_cons_of_mem _ h2)
            · intro p hp
              rcases List.mem_cons.mp hp with h1 | h2
              · rw [h1]; exact hle
              · exact hall p h2
          · rw [if_neg h]
            obtain ⟨t0, hmem, hle, hall⟩ := ih k t
            refine ⟨t0, ?_, hle, ?_⟩
            · rcases hmem with h1 | h2
              · exact Or.inl h1
              · exact Or.inr (List.mem_cons_of_mem _ h2)
            · intro p hp
              rcases List.mem_cons.mp hp with h1 | h2
              · rw [h1]
                exact le_trans hle (le_of_not_lt h)
              · exact hall p h2

/-- `findOldest` returns a listed key whose stamp is minimal. -/
theorem findOldest_spec (l : List (String × Int)) (k0 : String)
    (h : findOldest l = some k0) :
    ∃ t0, (k0, t0) ∈ l ∧ ∀ p ∈ l, t0 ≤ p.2 := by
  cases l with
  | nil => cases h
  | cons a r =>
      cases a with
      | mk k t =>
          simp only [findOldest] at h
          obtain ⟨t0, hmem, hle, hall⟩ := findOldestGo_spec r k t
          injection h with h
          subst h
          refine ⟨t0, ?_, ?_⟩
          · rcases hmem with h1 | h2
            · exact h1 ▸ List.mem_cons_self (k, t) r
            · exact List.mem_cons_of_mem _ h2
          · intro p hp
            rcases List.mem_cons.mp hp with h1 | h2
            · rw [h1]; exact hle
            · exact hall p h2

/-- `findOldest` of a nonempty list is some listed key. -/
theorem findOldest_eq_none_iff (l : List (String × Int)) :
    findOldest l = none ↔ l = [] := by
  cases l with
  | nil => simp [findOldest]
  | cons a r => cases a; simp [findOldest]

/-- `findOldest` keeps the initial candidate when every stamp is zero. -/
theorem findOldestGo_zeros (l : List (String × Int))
    (h : ∀ p ∈ l, p.2 = 0) : ∀ k, findOldest.findOldestGo k 0 l = k := by
  induction l with
  | nil => intro k; rfl
  | cons a r ih =>
      intro k
      cases a with
      | mk k' t' =>
          have ht' : t' = 0 := h (k', t') (List.mem_cons_self _ _)
          unfold findOldest.findOldestGo
          rw [ht', if_neg (lt_irrefl 0)]
          exact ih (fun p hp => h p (List.mem_cons_of_mem _ hp)) k

/-! ## Claim C4: well-formedness preservation -/

/-- Erasing a key from both maps preserves well-formedness and removes the
key. -/
theorem good_eraseBoth (c : LRUCache α) (k : String) (h : GoodCache c) :
    GoodCache { c with cache := mapErase k c.cache,
                       accessOrder := mapErase k c.accessOrder } ∧
    k ∉ (mapErase k c.cache).map Prod.fst := by
  obtain ⟨h1, h2, h3, h4⟩ := h
  refine ⟨⟨?_, ?_, ?_, ?_⟩, ?_⟩
  · show (mapErase k c.accessOrder).map Prod.fst =
      (mapErase k c.cache).map Prod.fst
    rw [keys_mapErase, keys_mapErase, h1]
  · show ((mapErase k c.cache).map Prod.fst).Nodup
    rw [keys_mapErase]
    exact h2.filter _
  · show "" ∉ (mapErase k c.cache).map Prod.fst
    rw [keys_mapErase]
    intro hm
    exact h3 (List.mem_of_mem_filter hm)
  · exact le_trans (List.length_filter_le _ _) h4
  · rw [keys_mapErase]
    intro hm
    have := List.of_mem_filter hm
    simp at this

/-- `get` preserves well-formedness and the bound. -/
theorem good_get (c : LRUCache α) (k : String) (t : Int)
    (h : GoodCache c) :
    GoodCache (c.get k t).2 ∧ (c.get k t).2.maxSize = c.maxSize := by
  obtain ⟨h1, h2, h3, h4⟩ := h
  unfold LRUCache.get
  cases hl : c.cache.lookup k with
  | none => exact ⟨⟨h1, h2, h3, h4⟩, rfl⟩
  | some e =>
      simp only
      by_cases hexp : t - e.timestamp > c.ttl
      · rw [if_pos hexp]
        exact ⟨(good_eraseBoth c k ⟨h1, h2, h3, h4⟩).1, rfl⟩
      · rw [if_neg hexp]
        have hany : c.cache.any (fun p => p.1 == k) = true :=
          any_of_lookup_some c.cache k e hl
        have hanyo : c.accessOrder.any (fun p => p.1 == k) = true := by
          rw [any_fst_eq, h1, ← any_fst_eq]
          exact hany
        obtain ⟨hks, hlen⟩ := mapSet_present k
          { e with accessCount := e.accessCount + 1 } c.cache hany
        obtain ⟨hkso, _⟩ := mapSet_present k t c.accessOrder hanyo
        refine ⟨⟨?_, ?_, ?_, ?_⟩, rfl⟩
        · show (mapSet k t c.accessOrder).map Prod.fst = _
          rw [hkso, hks, h1]
        · rw [hks]; exact h2
        · rw [hks]; exact h3
        · rw [hlen]; exact h4

/-- `evictLRU` on a well-formed nonempty cache stays well-formed, shrinks
the cache by one entry, and adds no key. -/
theorem evict_good (c : LRUCache α) (h : GoodCache c)
    (hne : c.cache ≠ []) :
    GoodCache c.evictLRU ∧ c.evictLRU.cache.length + 1 = c.cache.length ∧
    c.evictLRU.maxSize = c.maxSize ∧
    (∀ k, k ∉ c.cache.map Prod.fst →
      k ∉ c.evictLRU.cache.map Prod.fst) := by
  obtain ⟨h1, h2, h3, h4⟩ := h
  have hkeys_ne : c.cache.map Prod.fst ≠ [] := by
    intro hh
    exact hne (List.map_eq_nil_iff.mp hh)
  have horder_ne : c.accessOrder ≠ [] := by
    intro hh
    rw [hh] at h1
    exact hkeys_ne h1.symm
  unfold LRUCache.evictLRU
  rw [if_neg (by simpa [List.length_eq_zero] using horder_ne)]
  cases hfo : findOldest c.accessOrder with
  | none => exact absurd ((findOldest_eq_none_iff _).mp hfo) horder_ne
  | some kold =>
      simp only
      obtain ⟨told, hmem, _⟩ := findOldest_spec c.accessOrder kold hfo
      have hmemk : kold ∈ c.cache.map Prod.fst := by
        rw [← h1]
        exact List.mem_map_of_mem Prod.fst hmem
      have hkold : kold ≠ "" := fun he => h3 (he ▸ hmemk)
      rw [if_neg hkold]
      refine ⟨(good_eraseBoth c kold ⟨h1, h2, h3, h4⟩).1,
        length_mapErase_of_mem kold c.cache h2 hmemk, rfl, ?_⟩
      intro k hk hm
      rw [keys_mapErase] at hm
      exact hk (List.mem_of_mem_filter hm)

/-- `set` with a nonempty key preserves well-formedness on a tier with
positive capacity. -/
theorem good_set (c : LRUCache α) (k : String) (v : α) (t : Int)
    (h : GoodCache c) (hk : k ≠ "") (hmax : 1 ≤ c.maxSize) :
    GoodCache (c.set k v t) ∧ (c.set k v t).maxSize = c.maxSize := by
  unfold LRUCache.set
  simp only
  set c1 := if (c.cache.lookup k).isSome then
      { c with cache := mapErase k c.cache,
               accessOrder := mapErase k c.accessOrder }
    else c with hc1
  have hg1 : GoodCache c1 ∧ k ∉ c1.cache.map Prod.fst ∧
      c1.maxSize = c.maxSize := by
    rw [hc1]
    split
    · exact ⟨(good_eraseBoth c k h).1, (good_eraseBoth c k h).2, rfl⟩
    · next hns =>
        cases hl : c.cache.lookup k with
        | some e => rw [hl] at hns; simp at hns
        | none =>
            exact ⟨h, not_mem_keys_of_lookup_none c.cache k hl, rfl⟩
  obtain ⟨hg1, hk1, hm1⟩ := hg1
  set c2 := if c1.cache.length ≥ c1.maxSize then c1.evictLRU else c1
    with hc2
  have hg2 : GoodCache c2 ∧ k ∉ c2.cache.map Prod.fst ∧
      c2.maxSize = c.maxSize ∧ c2.cache.length + 1 ≤ c.maxSize := by
    rw [hc2]
    split
    · next hge =>
        have hlen1 : c1.cache.length = c1.maxSize :=
          le_antisymm hg1.2.2.2 hge
        have hne : c1.cache ≠ [] := by
          intro hh
          rw [hh] at hlen1
          rw [hm1] at hlen1
          simp at hlen1
          omega
        obtain ⟨hgood, hlen, hmax2, hpres⟩ := evict_good c1 hg1 hne
        refine ⟨hgood, hpres k hk1, hmax2.trans hm1, ?_⟩
        rw [hlen, hlen1, hm1]
    · next hlt =>
        push_neg at hlt
        refine ⟨hg1, hk1, hm1, ?_⟩
        rw [hm1] at hlt
        omega
  obtain ⟨hg2, hk2, hm2, hl2⟩ := hg2
  obtain ⟨g1, g2, g3, g4⟩ := hg2
  have hany : c2.cache.any (fun p => p.1 == k) = false := by
    cases hb : c2.cache.any (fun p => p.1 == k) with
    | false => rfl
    | true => exact absurd ((mem_keys_iff_any _ _).mpr hb) hk2
  have hanyo : c2.accessOrder.any (fun p => p.1 == k) = false := by
    rw [any_fst_eq, g1, ← any_fst_eq]
    exact hany
  rw [mapSet_absent k ⟨v, t, 1⟩ c2.cache hany,
    mapSet_absent k t c2.accessOrder hanyo]
  refine ⟨⟨?_, ?_, ?_, ?_⟩, hm2⟩
  · show (c2.accessOrder ++ [(k, t)]).map Prod.fst =
      (c2.cache ++ [(k, (⟨v, t, 1⟩ : CacheEntry α))]).map Prod.fst
    rw [List.map_append, List.map_append, g1]
    rfl
  · show ((c2.cache ++ [(k, (⟨v, t, 1⟩ : CacheEntry α))]).map Prod.fst).Nodup
    rw [List.map_append]
    exact nodup_append_singleton g2 hk2
  · show "" ∉ (c2.cache ++ [(k, (⟨v, t, 1⟩ : CacheEntry α))]).map Prod.fst
    rw [List.map_append, List.mem_append]
    rintro (hm | hm)
    · exact g3 hm
    · simp at hm
      exact hk hm.symm
  · show (c2.cache ++ [(k, (⟨v, t, 1⟩ : CacheEntry α))]).length ≤ c2.maxSize
    rw [List.length_append, hm2]
    simpa using hl2

/-- Every operation that does not set the empty-string key preserves
well-formedness and the capacity. -/
theorem good_applyOp (c : LRUCache α) (op : CacheOp α) (h : GoodCache c)
    (hmax : 1 ≤ c.maxSize) (hop : op.setKey ≠ some "") :
    GoodCache (applyOp c op) ∧ (applyOp c op).maxSize = c.maxSize := by
  cases op with
  | set k v t =>
      have hk : k ≠ "" := by
        intro hke
        exact hop (by rw [hke]; rfl)
      exact good_set c k v t h hk hmax
  | get k t => exact good_get c k t h
  | del k => exact ⟨(good_eraseBoth c k h).1, rfl⟩
  | clear =>
      refine ⟨⟨rfl, ?_, ?_, ?_⟩, rfl⟩
      · show (List.map Prod.fst ([] : List (String × CacheEntry α))).Nodup
        simp
      · show "" ∉ List.map Prod.fst ([] : List (String × CacheEntry α))
        simp
      · show ([] : List (String × CacheEntry α)).length ≤ c.maxSize
        simp

/-- Constantly valued maps miss absent keys. -/
theorem lookup_map_const_none {β : Type} (b : β) (ks : List String)
    (k : String) (hk : k ∉ ks) :
    (ks.map (fun s => (s, b))).lookup k = none := by
  induction ks with
  | nil => rfl
  | cons a t ih =>
      simp only [List.mem_cons] at hk
      push_neg at hk
      have hke : (k == a) = false := by simpa using hk.1
      simp only [List.map_cons, List.lookup, hke]
      exact ih hk.2

/-- Constantly valued maps have a false scan for absent keys. -/
theorem any_map_const_false {β : Type} (b : β) (ks : List String)
    (k : String) (hk : k ∉ ks) :
    (ks.map (fun s => (s, b))).any (fun p => p.1 == k) = false :=
  (lookup_none_iff_any_false k _).mp (lookup_map_const_none b ks k hk)

/-- `set` of a fresh key below capacity appends to both maps. -/
theorem set_fresh_append (c : LRUCache α) (k : String) (v : α) (t : Int)
    (h1 : c.cache.lookup k = none)
    (h2 : c.accessOrder.any (fun p => p.1 == k) = false)
    (h3 : c.cache.length < c.maxSize) :
    c.set k v t = ⟨c.maxSize, c.ttl, c.cache ++ [(k, ⟨v, t, 1⟩)],
                   c.accessOrder ++ [(k, t)]⟩ := by
  unfold LRUCache.set
  simp only
  rw [h1]
  rw [if_neg (show ¬(Option.isSome (none : Option (CacheEntry α)) = true)
    by simp)]
  rw [if_neg (show ¬(c.cache.length ≥ c.maxSize) by omega)]
  rw [mapSet_absent k ⟨v, t, 1⟩ c.cache
      ((lookup_none_iff_any_false k c.cache).mp h1),
    mapSet_absent k t c.accessOrder h2]

/-- Filling a tier with fresh keys at time zero appends the entries in
order. -/
theorem runOps_fill (rest : List String) : ∀ (done : List String)
    (max : Nat) (ttl : Int), (done ++ rest).Nodup →
    (done ++ rest).length ≤ max →
    runOps (LRUCache.mk max ttl
        (done.map (fun s => (s, (⟨0, 0, 1⟩ : CacheEntry Nat))))
        (done.map (fun s => (s, (0 : Int)))))
      (rest.map (fun k => CacheOp.set k 0 0)) =
      ⟨max, ttl, (done ++ rest).map (fun s => (s, (⟨0, 0, 1⟩ : CacheEntry Nat))),
       (done ++ rest).map (fun s => (s, (0 : Int)))⟩ := by
  induction rest with
  | nil =>
      intro done max ttl _ _
      simp [runOps]
  | cons k rs ih =>
      intro done max ttl hnd hlen
      have hkdone : k ∉ done := by
        rcases List.nodup_append.mp hnd with ⟨-, -, hdisj⟩
        intro hkm
        exact hdisj hkm (List.mem_cons_self k rs)
      have hlk : (done.map (fun s =>
          (s, (⟨0, 0, 1⟩ : CacheEntry Nat)))).lookup k = none :=
        lookup_map_const_none _ done k hkdone
      have hao : (done.map (fun s => (s, (0 : Int)))).any
          (fun p => p.1 == k) = false :=
        any_map_const_false _ done k hkdone
      have hlen' : done.length < max := by
        rw [List.length_append, List.length_cons] at hlen
        omega
      simp only [List.map_cons, runOps, List.foldl_cons, applyOp]
      rw [set_fresh_append (LRUCache.mk max ttl
          (done.map (fun s => (s, (⟨0, 0, 1⟩ : CacheEntry Nat))))
          (done.map (fun s => (s, (0 : Int))))) k 0 0 hlk hao
        (by simpa using hlen')]
      have hcast1 : done.map (fun s => (s, (⟨0, 0, 1⟩ : CacheEntry Nat))) ++
          [(k, (⟨0, 0, 1⟩ : CacheEntry Nat))] =
          (done ++ [k]).map (fun s => (s, (⟨0, 0, 1⟩ : CacheEntry Nat))) := by
        simp
      have hcast2 : done.map (fun s => (s, (0 : Int))) ++ [(k, (0 : Int))] =
          (done ++ [k]).map (fun s => (s, (0 : Int))) := by
        simp
      rw [hcast1, hcast2]
      have hres := ih (done ++ [k]) max ttl
        (by simpa using hnd) (by simpa using hlen)
      exact hres.trans (by
        have hassoc : (done ++ [k]) ++ rs = done ++ (k :: rs) := by simp
        rw [hassoc])

/-- The key filling the C4 counterexample is never the empty string. -/
theorem ckey_ne_empty (i : Nat) : ckey i ≠ "" := by
  intro h
  have hd := congrArg String.data h
  simp [ckey] at hd

/-- The three-letter keys are distinct below 17576. -/
theorem ckey_inj {i j : Nat} (hi : i < 17576) (hj : j < 17576)
    (h : ckey i = ckey j) : i = j := by
  have hd := congrArg String.data h
  simp only [ckey] at hd
  injection hd with e1 hd2
  injection hd2 with e2 hd3
  injection hd3 with e3 _
  have hb1 : i / 676 < 26 := (Nat.div_lt_iff_lt_mul (by norm_num)).mpr (by omega)
  have hb1' : j / 676 < 26 := (Nat.div_lt_iff_lt_mul (by norm_num)).mpr (by omega)
  have hb2 : (i / 26) % 26 < 26 := Nat.mod_lt _ (by norm_num)
  have hb2' : (j / 26) % 26 < 26 := Nat.mod_lt _ (by norm_num)
  have hb3 : i % 26 < 26 := Nat.mod_lt _ (by norm_num)
  have hb3' : j % 26 < 26 := Nat.mod_lt _ (by norm_num)
  have n1 : 65 + i / 676 = 65 + j / 676 := by
    have := congrArg Char.toNat e1
    rwa [toNat_ofNat_small (by omega), toNat_ofNat_small (by omega)] at this
  have n2 : 65 + (i / 26) % 26 = 65 + (j / 26) % 26 := by
    have := congrArg Char.toNat e2
    rwa [toNat_ofNat_small (by omega), toNat_ofNat_small (by omega)] at this
  have n3 : 65 + i % 26 = 65 + j % 26 := by
    have := congrArg Char.toNat e3
    rwa [toNat_ofNat_small (by omega), toNat_ofNat_small (by omega)] at this
  have hs1 : i / 26 / 26 = i / 676 := by
    rw [Nat.div_div_eq_div_mul]
  have hs2 : j / 26 / 26 = j / 676 := by
    rw [Nat.div_div_eq_div_mul]
  have hmi := Nat.div_add_mod (i / 26) 26
  have hmj := Nat.div_add_mod (j / 26) 26
  have hfi := Nat.div_add_mod i 26
  have hfj := Nat.div_add_mod j 26
  omega

/-- The C4 fill keys are duplicate-free. -/
theorem c4FillKeys_nodup : c4FillKeys.Nodup := by
  unfold c4FillKeys
  refine List.nodup_cons.mpr ⟨?_, ?_⟩
  · intro hm
    rcases List.mem_map.mp hm with ⟨i, -, hke⟩
    exact ckey_ne_empty i hke
  · refine List.Nodup.map_on ?_ (List.nodup_range 999)
    intro i hi j hj hij
    have hi' := List.mem_range.mp hi
    have hj' := List.mem_range.mp hj
    exact ckey_inj (by omega) (by omega) hij

/-- The 1000th key is fresh. -/
theorem ckey999_not_mem : ckey 999 ∉ c4FillKeys := by
  unfold c4FillKeys
  intro hm
  rcases List.mem_cons.mp hm with h1 | h2
  · exact ckey_ne_empty 999 h1
  · rcases List.mem_map.mp h2 with ⟨i, hi, hke⟩
    have hi' := List.mem_range.mp hi
    have := ckey_inj (by omega) (by omega) hke.symm
    omega

/-- The fill reaches exactly the generation tier's capacity. -/
theorem c4FillKeys_length : c4FillKeys.length = 1000 := by
  simp [c4FillKeys]

/-- On a tier at capacity whose least recently used key is the empty
string, `set` of a fresh key evicts nothing and overflows the bound. -/
theorem set_full_overflow (max : Nat) (ttl : Int) (rest : List String)
    (knew : String) (hnew : knew ∉ ("" :: rest))
    (hmax : ("" :: rest).length = max) :
    ((LRUCache.mk max ttl
        (("" :: rest).map (fun s => (s, (⟨0, 0, 1⟩ : CacheEntry Nat))))
        (("" :: rest).map (fun s => (s, (0 : Int))))).set knew 0 0).cache.length
      = max + 1 := by
  have hlk : (("" :: rest).map (fun s =>
      (s, (⟨0, 0, 1⟩ : CacheEntry Nat)))).lookup knew = none :=
    lookup_map_const_none _ _ knew hnew
  have hmax2 : rest.length + 1 = max := by simpa using hmax
  have hfo : findOldest (("" :: rest).map (fun s => (s, (0 : Int)))) =
      some "" := by
    simp only [List.map_cons, findOldest]
    rw [findOldestGo_zeros]
    intro p hp
    rcases List.mem_map.mp hp with ⟨s, -, hs⟩
    rw [← hs]
  have hev : (LRUCache.mk max ttl
      (("" :: rest).map (fun s => (s, (⟨0, 0, 1⟩ : CacheEntry Nat))))
      (("" :: rest).map (fun s => (s, (0 : Int))))).evictLRU =
      LRUCache.mk max ttl
        (("" :: rest).map (fun s => (s, (⟨0, 0, 1⟩ : CacheEntry Nat))))
        (("" :: rest).map (fun s => (s, (0 : Int)))) := by
    unfold LRUCache.evictLRU
    rw [if_neg (show ¬((("" :: rest).map
        (fun s => (s, (0 : Int)))).length = 0) by simp)]
    rw [hfo]
    simp
  unfold LRUCache.set
  simp only
  rw [hlk]
  rw [if_neg (show ¬(Option.isSome (none : Option (CacheEntry Nat)) = true)
    by simp)]
  rw [if_pos (show (("" :: rest).map (fun s =>
      (s, (⟨0, 0, 1⟩ : CacheEntry Nat)))).length ≥ max by simp; omega)]
  rw [hev]
  show (mapSet knew ⟨0, 0, 1⟩
      (("" :: rest).map (fun s => (s, (⟨0, 0, 1⟩ : CacheEntry Nat))))).length
    = max + 1
  rw [mapSet_absent knew ⟨0, 0, 1⟩ _
    ((lookup_none_iff_any_false knew _).mp hlk)]
  simp only [List.length_append, List.length_map, List.length_cons,
    List.length_singleton, List.length_nil]
  omega

/-- A whole operation sequence preserves well-formedness and the
capacity. -/
theorem runOps_good (ops : List (CacheOp α)) : ∀ (c : LRUCache α),
    GoodCache c → 1 ≤ c.maxSize → (∀ op ∈ ops, op.setKey ≠ some "") →
    GoodCache (runOps c ops) ∧ (runOps c ops).maxSize = c.maxSize := by
  induction ops with
  | nil => exact fun c h _ _ => ⟨h, rfl⟩
  | cons op rest ih =>
      intro c h hmax hops
      have h1 := good_applyOp c op h hmax (hops op (List.mem_cons_self _ _))
      have h2 := ih (applyOp c op) h1.1 (h1.2 ▸ hmax)
        (fun o ho => hops o (List.mem_cons_of_mem _ ho))
      show GoodCache (runOps (applyOp c op) rest) ∧
        (runOps (applyOp c op) rest).maxSize = c.maxSize
      exact ⟨h2.1, h2.2.trans h1.2⟩

/-- C4 counterexample: on the generation tier (maxSize 1000), setting the
empty-string key first, then filling the tier with 999 fresh keys and
setting one more fresh key, leaves 1001 entries: the falsy-key guard of
`evictLRU` suppresses the eviction of the least recently used entry, so
the size exceeds the configured bound. -/
theorem claim4_counterexample_tier_overflow :
    (runOps (generationTierInit Nat) c4Ops).size = 1001 ∧
    (generationTierInit Nat).maxSize = 1000 := by
  refine ⟨?_, rfl⟩
  unfold c4Ops
  rw [List.map_append]
  show (List.foldl applyOp (generationTierInit Nat)
    (c4FillKeys.map (fun k => CacheOp.set k 0 0) ++
      [ckey 999].map (fun k => CacheOp.set k 0 0))).size = 1001
  rw [List.foldl_append]
  have hfill := runOps_fill c4FillKeys [] 1000 3600000
    (by simpa using c4FillKeys_nodup)
    (by rw [List.nil_append, c4FillKeys_length])
  have hfill2 : List.foldl applyOp (generationTierInit Nat)
      (c4FillKeys.map (fun k => CacheOp.set k 0 0)) =
      ⟨1000, 3600000,
       c4FillKeys.map (fun s => (s, (⟨0, 0, 1⟩ : CacheEntry Nat))),
       c4FillKeys.map (fun s => (s, (0 : Int)))⟩ := by
    have h2 := hfill
    rw [List.nil_append] at h2
    exact h2
  rw [hfill2]
  show ((⟨1000, 3600000,
      c4FillKeys.map (fun s => (s, (⟨0, 0, 1⟩ : CacheEntry Nat))),
      c4FillKeys.map (fun s => (s, (0 : Int)))⟩ : LRUCache Nat).set
        (ckey 999) 0 0).cache.length = 1001
  have hover := set_full_overflow 1000 3600000 ((List.range 999).map ckey)
    (ckey 999) (by
      have hnm := ckey999_not_mem
      unfold c4FillKeys at hnm
      exact hnm)
    (by
      have hl := c4FillKeys_length
      unfold c4FillKeys at hl
      exact hl)
  exact hover

/-- C4 (amended): starting from a fresh tier of positive capacity — in
particular each of the parse, generation and rule tiers, whose real keys
are all prefixed and hence nonempty — any sequence of set/get/delete/clear
operations whose `set` keys are nonempty keeps the tier's size at or below
its configured maxSize; and `set` on a well-formed tier already holding
maxSize entries, for a fresh nonempty key, first evicts the entry whose
access stamp is minimal (the least recently used) before inserting the new
one.  (Without the nonempty-key proviso the bound fails: see the
counterexample, where the falsy empty-string key suppresses eviction.) -/
theorem claim4_size_invariant (α : Type) :
    (∀ (maxSize : Nat) (ttl : Int) (ops : List (CacheOp α)),
      1 ≤ maxSize → (∀ op ∈ ops, op.setKey ≠ some "") →
      (runOps (LRUCache.init α maxSize ttl) ops).size ≤ maxSize) ∧
    (∀ ops : List (CacheOp α), (∀ op ∈ ops, op.setKey ≠ some "") →
      (runOps (parseTierInit α) ops).size ≤ 5000 ∧
      (runOps (generationTierInit α) ops).size ≤ 1000 ∧
      (runOps (ruleTierInit α) ops).size ≤ 10000) ∧
    (∀ (c : LRUCache α) (k : String) (v : α) (now : Int),
      GoodCache c → c.cache.length = c.maxSize → 1 ≤ c.maxSize →
      c.cache.lookup k = none → k ≠ "" →
      (c.set k v now).size ≤ c.maxSize ∧
      ∃ kold told, findOldest c.accessOrder = some kold ∧
        (kold, told) ∈ c.accessOrder ∧
        (∀ p ∈ c.accessOrder, told ≤ p.2) ∧
        (c.set k v now).cache.lookup kold = none) := by
  have hmain : ∀ (maxSize : Nat) (ttl : Int) (ops : List (CacheOp α)),
      1 ≤ maxSize → (∀ op ∈ ops, op.setKey ≠ some "") →
      (runOps (LRUCache.init α maxSize ttl) ops).size ≤ maxSize := by
    intro maxSize ttl ops hm hops
    have hinit : GoodCache (LRUCache.init α maxSize ttl) :=
      ⟨rfl, List.nodup_nil, List.not_mem_nil "", Nat.zero_le maxSize⟩
    have hrun := runOps_good ops (LRUCache.init α maxSize ttl) hinit hm hops
    have h4 := hrun.1.2.2.2
    rw [hrun.2] at h4
    exact h4
  refine ⟨hmain, ?_, ?_⟩
  · intro ops hops
    exact ⟨hmain 5000 3600000 ops (by omega) hops,
      hmain 1000 3600000 ops (by omega) hops,
      hmain 10000 3600000 ops (by omega) hops⟩
  · intro c k v now hg hsize hmax hlk hk
    obtain ⟨h1, h2, h3, h4⟩ := hg
    have hknot := not_mem_keys_of_lookup_none c.cache k hlk
    have hcne : c.cache ≠ [] := by
      intro hh
      rw [hh] at hsize
      simp at hsize
      omega
    have hkeys_ne : c.cache.map Prod.fst ≠ [] := by
      intro hh
      exact hcne (List.map_eq_nil_iff.mp hh)
    have horder_ne : c.accessOrder ≠ [] := by
      intro hh
      rw [hh] at h1
      exact hkeys_ne h1.symm
    cases hfo : findOldest c.accessOrder with
    | none => exact absurd ((findOldest_eq_none_iff _).mp hfo) horder_ne
    | some kold =>
        obtain ⟨told, hmem, hmin⟩ := findOldest_spec c.accessOrder kold hfo
        have hmemk : kold ∈ c.cache.map Prod.fst := by
          rw [← h1]
          exact List.mem_map_of_mem Prod.fst hmem
        have hkold : kold ≠ "" := fun he => h3 (he ▸ hmemk)
        have hkoldk : kold ≠ k := fun he => hknot (he ▸ hmemk)
        have hanyE : (mapErase kold c.cache).any
            (fun p => p.1 == k) = false := by
          cases hb : (mapErase kold c.cache).any (fun p => p.1 == k) with
          | false => rfl
          | true =>
              have := (mem_keys_iff_any _ _).mpr hb
              rw [keys_mapErase] at this
              exact absurd (List.mem_of_mem_filter this) hknot
        have hanyEo : (mapErase kold c.accessOrder).any
            (fun p => p.1 == k) = false := by
          rw [any_fst_eq, keys_mapErase, h1, ← keys_mapErase, ← any_fst_eq]
          exact hanyE
        unfold LRUCache.set
        simp only
        rw [hlk]
        rw [if_neg (show ¬(Option.isSome (none : Option (CacheEntry α)) = true)
          by simp)]
        rw [if_pos (show c.cache.length ≥ c.maxSize from le_of_eq hsize.symm)]
        unfold LRUCache.evictLRU
        rw [if_neg (by simpa [List.length_eq_zero] using horder_ne)]
        rw [hfo]
        simp only
        rw [if_neg hkold]
        rw [mapSet_absent k ⟨v, now, 1⟩ _ hanyE,
          mapSet_absent k now _ hanyEo]
        constructor
        · show (mapErase kold c.cache ++
              [(k, (⟨v, now, 1⟩ : CacheEntry α))]).length ≤ c.maxSize
          rw [List.length_append]
          have hlenE := length_mapErase_of_mem kold c.cache h2 hmemk
          simp only [List.length_cons, List.length_nil]
          omega
        · refine ⟨kold, told, rfl, hmem, hmin, ?_⟩
          show (mapErase kold c.cache ++
              [(k, (⟨v, now, 1⟩ : CacheEntry α))]).lookup kold = none
          rw [lookup_append_right kold _ _ (lookup_mapErase_self kold c.cache)]
          have hne : (kold == k) = false := by simpa using hkoldk
          simp [List.lookup, hne]

/-- C4 witness: the amended invariant on a tier of capacity 2 over a
six-operation sequence, and the eviction clause at a concrete full
well-formed tier. -/
theorem claim4_witness :
    (runOps (LRUCache.init Nat 2 100)
      [CacheOp.set "a" 1 0, CacheOp.set "b" 2 1, CacheOp.set "c" 3 2,
       CacheOp.get "a" 3, CacheOp.del "b", CacheOp.set "d" 4 5]).size ≤ 2 ∧
    (((⟨2, 100, [("a", ⟨1, 0, 1⟩), ("b", ⟨2, 1, 1⟩)],
        [("a", 0), ("b", 1)]⟩ : LRUCache Nat).set "c" 5 7).size ≤
      (⟨2, 100, [("a", ⟨1, 0, 1⟩), ("b", ⟨2, 1, 1⟩)],
        [("a", 0), ("b", 1)]⟩ : LRUCache Nat).maxSize ∧
     ∃ kold told,
       findOldest (⟨2, 100, [("a", ⟨1, 0, 1⟩), ("b", ⟨2, 1, 1⟩)],
         [("a", 0), ("b", 1)]⟩ : LRUCache Nat).accessOrder = some kold ∧
       (kold, told) ∈ (⟨2, 100, [("a", ⟨1, 0, 1⟩), ("b", ⟨2, 1, 1⟩)],
         [("a", 0), ("b", 1)]⟩ : LRUCache Nat).accessOrder ∧
       (∀ p ∈ (⟨2, 100, [("a", ⟨1, 0, 1⟩), ("b", ⟨2, 1, 1⟩)],
         [("a", 0), ("b", 1)]⟩ : LRUCache Nat).accessOrder, told ≤ p.2) ∧
       (((⟨2, 100, [("a", ⟨1, 0, 1⟩), ("b", ⟨2, 1, 1⟩)],
         [("a", 0), ("b", 1)]⟩ : LRUCache Nat).set "c" 5 7).cache.lookup kold
           = none)) :=
  ⟨(claim4_size_invariant Nat).1 2 100
      [CacheOp.set "a" 1 0, CacheOp.set "b" 2 1, CacheOp.set "c" 3 2,
       CacheOp.get "a" 3, CacheOp.del "b", CacheOp.set "d" 4 5]
      (by decide) (by decide),
   (claim4_size_invariant Nat).2.2
      ⟨2, 100, [("a", ⟨1, 0, 1⟩), ("b", ⟨2, 1, 1⟩)], [("a", 0), ("b", 1)]⟩
      "c" 5 7 (by decide) (by decide) (by decide) (by decide) (by decide)⟩

end Zyra
